import Mathlib

/-!
Verification development for the wasm-gba emulator core (Rust sources under
src/). The Rust code is shallowly embedded: machine integers (u8/u16/u32)
become `Nat` with explicit `% 2^w` wherever overflow can occur, arrays become
functions `Nat → Nat`, and fallible code (Rust `panic!` / `unwrap` /
`unimplemented!`) returns `Option` (`none` models an abort).

Modelling notes, recorded once here:
  * The module `src/mem/addrs.rs` (segment boundary constants such as
    EWRAM_START) is declared by `mod addrs;` in src/mem/mod.rs but the file is
    absent from the source tree.  Its constants are modelled from the spec's
    address-space table (spec section 3) and from the concrete ranges used by
    the sibling file src/mem.rs and the tests in src/mem/mod.rs.
  * The parsed LCD (graphics) and OAM sprite views are not modelled: the
    corresponding update functions in src/mem/io/graphics.rs and
    src/mem/oam.rs mutate only those parsed views (which contain f32 fields),
    never write to raw memory, and cannot abort for in-window addresses
    (every panic arm is unreachable and every enum unwrap is over a masked
    2-bit value with 4 variants).  They are therefore embedded as the
    identity on the modelled state.  No theorem below observes those views.
  * Rust release-mode wrapping semantics are used for the u16 and u32
    arithmetic that can overflow (`count * chunk_size` in run_dma, address
    arithmetic); debug builds would abort at the same spots, which does not
    change which claims hold.
-/

namespace Gba

/-- Embedding of util::get_bit: return bit i of data (0-indexed from LSB). -/
def get_bit (data : Nat) (i : Nat) : Bool :=
  decide ((data >>> i) % 2 = 1)

/-- Embedding of util::get_nibble: the 4 bits starting at bit i. -/
def get_nibble (data : Nat) (i : Nat) : Nat :=
  (data >>> i) % 16

/-- Embedding of util::get_byte: the 8 bits starting at bit i. -/
def get_byte_at (data : Nat) (i : Nat) : Nat :=
  (data >>> i) % 256

/-- Pointwise update of one cell of an embedded byte or register array. -/
def updFn (f : Nat → Nat) (i v : Nat) : Nat → Nat :=
  fun j => if j = i then v else f j

/-- Embedding of u16::reverse_bits as used by BlockDataTransfer::run:
bit i of the result is bit (15 - i) of the input. -/
def reverse_bits16 (n : Nat) : Nat :=
  (List.range 16).foldl (fun acc i => acc * 2 + (n >>> i) % 2) 0

/-! Address constants.  The graphics / DMA / interrupt register addresses are
from src/mem/io/addrs.rs.  The segment boundary constants are modelled from
the spec: the file src/mem/addrs.rs referenced by src/mem/mod.rs is missing
from the tree, so the values come from the spec's section-3 table (which
matches the explicit ranges in src/mem.rs and the tests). -/

def SYSROM_START : Nat := 0x0000000
def SYSROM_END : Nat := 0x0003FFF
def EWRAM_START : Nat := 0x2000000
def EWRAM_END : Nat := 0x203FFFF
def IWRAM_START : Nat := 0x3000000
def IWRAM_END : Nat := 0x3007FFF
def IO_START : Nat := 0x4000000
def IO_END : Nat := 0x40003FF
def PAL_START : Nat := 0x5000000
def PAL_END : Nat := 0x50003FF
def VRAM_START : Nat := 0x6000000
def VRAM_END : Nat := 0x6017FFF
def OAM_START : Nat := 0x7000000
def OAM_END : Nat := 0x70003FF
def ROM_START : Nat := 0x8000000
def ROM_END : Nat := 0x9FFFFFF
def ROM_MIRROR1_START : Nat := 0xA000000
def ROM_MIRROR1_END : Nat := 0xBFFFFFF
def ROM_MIRROR2_START : Nat := 0xC000000
def ROM_MIRROR2_END : Nat := 0xDFFFFFF

def GRAPHICS_START : Nat := 0x4000000
def GRAPHICS_END : Nat := 0x4000055
def DMA_START : Nat := 0x40000B0
def DMA_END : Nat := 0x40000DF
def DMA_SAD (i : Nat) : Nat := [0x40000B0, 0x40000BC, 0x40000C8, 0x40000D4].getD i 0
def DMA_DAD (i : Nat) : Nat := [0x40000B4, 0x40000C0, 0x40000CC, 0x40000D8].getD i 0
def DMA_CNT (i : Nat) : Nat := [0x40000BA, 0x40000C6, 0x40000D2, 0x40000DE].getD i 0
def INT_START : Nat := 0x4000200
def IE_LO : Nat := 0x4000200
def IE_HI : Nat := 0x4000201
def IF_LO : Nat := 0x4000202
def IF_HI : Nat := 0x4000203
def WSCNT_LO : Nat := 0x4000204
def IME : Nat := 0x4000208
def INT_END : Nat := 0x4000208

/-- Folding of the two VRAM sub-cases of canonicalize_addr, for addresses in
the base 128 KiB block 0x6000000..0x601FFFF: the lower 96 KiB maps to itself
and the upper 32 KiB folds onto 0x6010000..0x6017FFF. -/
def canonicalize_vram_base (addr : Nat) : Nat :=
  if addr ≤ 0x6017FFF then addr else 0x6010000 + addr - 0x6018000

/-- Embedding of mem::canonicalize_addr (src/mem/mod.rs): map any address of a
mirrored segment to the actual segment.  The source's 0x6020000..0x6FFFFFF
arm recurses into canonicalize_addr; the recursive call's argument
VRAM_START + addr % 0x20000 always lies in 0x6000000..0x601FFFF, where
canonicalize_addr is exactly canonicalize_vram_base, so that single
unfolding is inlined here (keeping the definition structurally reducible);
canonicalize_addr_vram_inline below proves the two agree on that range. -/
def canonicalize_addr (addr : Nat) : Nat :=
  if addr ≤ 0x0FFFFFF then addr
  else if 0x2000000 ≤ addr ∧ addr ≤ 0x2FFFFFF then EWRAM_START + addr % 0x40000
  else if 0x3000000 ≤ addr ∧ addr ≤ 0x3FFFFFF then IWRAM_START + addr % 0x8000
  else if 0x4000000 ≤ addr ∧ addr ≤ 0x40003FF then addr
  else if 0x4000400 ≤ addr ∧ addr ≤ 0x4FFFFFF then
    -- the word at 0x4000800 is mirrored every 0x10000 bytes
    (if addr % 0x10000 < 4 then 0x4000800 + addr % 0x10000 else addr)
  else if 0x5000000 ≤ addr ∧ addr ≤ 0x5FFFFFF then PAL_START + addr % 0x400
  else if 0x6000000 ≤ addr ∧ addr ≤ 0x6017FFF then addr
  else if 0x6018000 ≤ addr ∧ addr ≤ 0x601FFFF then 0x6010000 + addr - 0x6018000
  else if 0x6020000 ≤ addr ∧ addr ≤ 0x6FFFFFF then
    canonicalize_vram_base (VRAM_START + addr % 0x20000)
  else if 0x7000000 ≤ addr ∧ addr ≤ 0x7FFFFFF then OAM_START + addr % 0x400
  else addr

/-- Names of the raw memory segments of RawMemory (src/mem/mod.rs). -/
inductive SegName where
  | sysrom | ewram | iwram | io | pal | vram | oam | rom
deriving DecidableEq

/-- Embedding of struct RawMemory: each byte array becomes a function from the
index to the byte stored there; the borrowed cartridge ROM is an optional
byte list (None until load_rom is called). -/
structure RawMemory where
  sysrom : Nat → Nat
  ewram : Nat → Nat
  iwram : Nat → Nat
  io : Nat → Nat
  pal : Nat → Nat
  vram : Nat → Nat
  oam : Nat → Nat
  rom : Option (List Nat)

/-- Embedding of RawMemory::new: all segments zeroed, no ROM loaded. -/
def RawMemory.new : RawMemory :=
  { sysrom := fun _ => 0, ewram := fun _ => 0, iwram := fun _ => 0
    io := fun _ => 0, pal := fun _ => 0, vram := fun _ => 0
    oam := fun _ => 0, rom := none }

/-- Length of each segment array (the Rust array sizes; for the ROM, the
length of the loaded slice, with 0 when no ROM is loaded). -/
def RawMemory.segLen (m : RawMemory) : SegName → Nat
  | .sysrom => 0x4000
  | .ewram => 0x40000
  | .iwram => 0x8000
  | .io => 0x400
  | .pal => 0x400
  | .vram => 0x18000
  | .oam => 0x400
  | .rom => (m.rom.getD []).length

/-- Read index idx of a segment (no bound check here; RawMemory::get_byte
performs the bound check before calling this). -/
def RawMemory.segRead (m : RawMemory) : SegName → Nat → Nat
  | .sysrom, idx => m.sysrom idx
  | .ewram, idx => m.ewram idx
  | .iwram, idx => m.iwram idx
  | .io, idx => m.io idx
  | .pal, idx => m.pal idx
  | .vram, idx => m.vram idx
  | .oam, idx => m.oam idx
  | .rom, idx => (m.rom.getD []).getD idx 0

/-- Write val at index idx of a segment.  The index is always within bounds
when reached through get_loc_mut (whose match arms bound it), mirroring the
Rust slice store.  The ROM segment is never reached here: get_loc_mut panics
first. -/
def RawMemory.segWrite (m : RawMemory) (s : SegName) (idx val : Nat) : RawMemory :=
  match s with
  | .sysrom => { m with sysrom := updFn m.sysrom idx val }
  | .ewram => { m with ewram := updFn m.ewram idx val }
  | .iwram => { m with iwram := updFn m.iwram idx val }
  | .io => { m with io := updFn m.io idx val }
  | .pal => { m with pal := updFn m.pal idx val }
  | .vram => { m with vram := updFn m.vram idx val }
  | .oam => { m with oam := updFn m.oam idx val }
  | .rom => m

/-- Embedding of RawMemory::get_loc: convert an absolute address to a segment
and an index into it.  Outer `none` models a panic (ROM range with no ROM
loaded via Option::unwrap, or the unimplemented save-RAM range); `some none`
models the wildcard arm that returns Rust `None`; `some (some (s, idx))` is a
segment hit. -/
def RawMemory.get_loc (m : RawMemory) (addr : Nat) : Option (Option (SegName × Nat)) :=
  if addr ≤ SYSROM_END then some (some (.sysrom, addr))
  else if EWRAM_START ≤ addr ∧ addr ≤ EWRAM_END then some (some (.ewram, addr - EWRAM_START))
  else if IWRAM_START ≤ addr ∧ addr ≤ IWRAM_END then some (some (.iwram, addr - IWRAM_START))
  else if IO_START ≤ addr ∧ addr ≤ IO_END then some (some (.io, addr - IO_START))
  else if PAL_START ≤ addr ∧ addr ≤ PAL_END then some (some (.pal, addr - PAL_START))
  else if VRAM_START ≤ addr ∧ addr ≤ VRAM_END then some (some (.vram, addr - VRAM_START))
  else if OAM_START ≤ addr ∧ addr ≤ OAM_END then some (some (.oam, addr - OAM_START))
  else if ROM_START ≤ addr ∧ addr ≤ ROM_END then
    (if m.rom.isSome then some (some (.rom, addr - ROM_START)) else none)
  else if ROM_MIRROR1_START ≤ addr ∧ addr ≤ ROM_MIRROR1_END then
    (if m.rom.isSome then some (some (.rom, addr - ROM_MIRROR1_START)) else none)
  else if ROM_MIRROR2_START ≤ addr ∧ addr ≤ ROM_MIRROR2_END then
    (if m.rom.isSome then some (some (.rom, addr - ROM_MIRROR2_START)) else none)
  else if 0x0E000000 ≤ addr ∧ addr ≤ 0x0E00FFFF then none
  else some none

/-- Embedding of RawMemory::get_loc_mut.  Any address in the whole ROM range
0x8000000-0xDFFFFFF panics ("trying to write to ROM"), modelled as `none`;
the unimplemented save-RAM range also panics. -/
def RawMemory.get_loc_mut (m : RawMemory) (addr : Nat) : Option (Option (SegName × Nat)) :=
  if addr ≤ SYSROM_END then some (some (.sysrom, addr))
  else if EWRAM_START ≤ addr ∧ addr ≤ EWRAM_END then some (some (.ewram, addr - EWRAM_START))
  else if IWRAM_START ≤ addr ∧ addr ≤ IWRAM_END then some (some (.iwram, addr - IWRAM_START))
  else if IO_START ≤ addr ∧ addr ≤ IO_END then some (some (.io, addr - IO_START))
  else if PAL_START ≤ addr ∧ addr ≤ PAL_END then some (some (.pal, addr - PAL_START))
  else if VRAM_START ≤ addr ∧ addr ≤ VRAM_END then some (some (.vram, addr - VRAM_START))
  else if OAM_START ≤ addr ∧ addr ≤ OAM_END then some (some (.oam, addr - OAM_START))
  else if ROM_START ≤ addr ∧ addr ≤ ROM_MIRROR2_END then none
  else if 0x0E000000 ≤ addr ∧ addr ≤ 0x0E00FFFF then none
  else some none

/-- Embedding of RawMemory::get_byte: unmapped addresses read as 0, as do
indices past the end of the owning segment; a `none` result models a panic
(ROM range with no ROM loaded). -/
def RawMemory.get_byte (m : RawMemory) (addr : Nat) : Option Nat :=
  (m.get_loc addr).map fun loc =>
    match loc with
    | none => 0
    | some (s, idx) => if m.segLen s ≤ idx then 0 else m.segRead s idx

/-- Embedding of RawMemory::get_halfword (little endian). -/
def RawMemory.get_halfword (m : RawMemory) (addr : Nat) : Option Nat := do
  let b0 ← m.get_byte addr
  let b1 ← m.get_byte (addr + 1)
  return b0 + b1 * 256

/-- Embedding of RawMemory::get_word (little endian). -/
def RawMemory.get_word (m : RawMemory) (addr : Nat) : Option Nat := do
  let b0 ← m.get_byte addr
  let b1 ← m.get_byte (addr + 1)
  let b2 ← m.get_byte (addr + 2)
  let b3 ← m.get_byte (addr + 3)
  return b0 + b1 * 256 + b2 * 65536 + b3 * 16777216

/-- Embedding of RawMemory::set_byte: writes through get_loc_mut; the Rust
`.map(...)` on the option makes unmapped addresses a silent no-op, while the
panicking arms (ROM, save RAM) abort, modelled as `none`. -/
def RawMemory.set_byte (m : RawMemory) (addr val : Nat) : Option RawMemory :=
  (m.get_loc_mut addr).map fun loc =>
    match loc with
    | none => m
    | some (s, idx) => m.segWrite s idx val

/-- Embedding of RawMemory::set_halfword: two byte stores at successive raw
addresses (no re-canonicalization). -/
def RawMemory.set_halfword (m : RawMemory) (addr val : Nat) : Option RawMemory := do
  let m1 ← m.set_byte addr (get_byte_at val 0)
  m1.set_byte (addr + 1) (get_byte_at val 8)

/-- Embedding of RawMemory::set_word: four byte stores at successive raw
addresses (no re-canonicalization). -/
def RawMemory.set_word (m : RawMemory) (addr val : Nat) : Option RawMemory := do
  let m1 ← m.set_byte addr (get_byte_at val 0)
  let m2 ← m1.set_byte (addr + 1) (get_byte_at val 8)
  let m3 ← m2.set_byte (addr + 2) (get_byte_at val 16)
  m3.set_byte (addr + 3) (get_byte_at val 24)

/-! Parsed interrupt view (src/mem/io/interrupt.rs). -/

/-- Embedding of struct InterruptBitmap: one flag per interrupt source; the
Rust [bool; 4] arrays become functions. -/
structure InterruptBitmap where
  vblank : Bool
  hblank : Bool
  vcount : Bool
  timer : Nat → Bool
  serial : Bool
  dma : Nat → Bool
  keypad : Bool
  gamepak : Bool

/-- Embedding of InterruptBitmap::new: everything cleared. -/
def InterruptBitmap.new : InterruptBitmap :=
  { vblank := false, hblank := false, vcount := false, timer := fun _ => false
    serial := false, dma := fun _ => false, keypad := false, gamepak := false }

/-- Embedding of InterruptBitmap::as_array (the 14 flags in IF/IE bit order). -/
def InterruptBitmap.as_array (b : InterruptBitmap) : List Bool :=
  [b.vblank, b.hblank, b.vcount, b.timer 0, b.timer 1, b.timer 2, b.timer 3,
   b.serial, b.dma 0, b.dma 1, b.dma 2, b.dma 3, b.keypad, b.gamepak]

/-- Embedding of struct Interrupt: IME flag plus the parsed IE and IF views. -/
structure Interrupt where
  master_enabled : Bool
  enabled : InterruptBitmap
  triggered : InterruptBitmap

/-- Embedding of Interrupt::new. -/
def Interrupt.new : Interrupt :=
  { master_enabled := false, enabled := .new, triggered := .new }

/-- Embedding of Interrupt::pending_interrupts: true when the master flag is
set and some source is both enabled and triggered. -/
def Interrupt.pending_interrupts (i : Interrupt) : Bool :=
  i.master_enabled &&
    ((i.enabled.as_array.zip i.triggered.as_array).any fun p => p.1 && p.2)

/-! Parsed DMA view (src/mem/io/dma.rs). -/

/-- Embedding of enum IncrType. -/
inductive IncrType where
  | Inc | Dec | Fixed | Reload
deriving DecidableEq

/-- Embedding of IncrType::update_addr (wrapping u32 arithmetic). -/
def IncrType.update_addr (t : IncrType) (addr : Nat) : Nat :=
  match t with
  | .Inc | .Reload => (addr + 1) % 2 ^ 32
  | .Dec => (addr + 2 ^ 32 - 1) % 2 ^ 32
  | .Fixed => addr

/-- Embedding of enum TimingMode. -/
inductive TimingMode where
  | Now | VBlank | HBlank | Refresh
deriving DecidableEq

/-- Embedding of IncrType::from_u16 restricted to the masked 2-bit arguments
the code passes (always in range, so the Rust unwrap cannot fail). -/
def IncrType.from_u16 (n : Nat) : IncrType :=
  match n with
  | 0 => .Inc
  | 1 => .Dec
  | 2 => .Fixed
  | _ => .Reload

/-- Embedding of TimingMode::from_u16 restricted to masked 2-bit arguments. -/
def TimingMode.from_u16 (n : Nat) : TimingMode :=
  match n with
  | 0 => .Now
  | 1 => .VBlank
  | 2 => .HBlank
  | _ => .Refresh

/-- Embedding of struct DMAChannel. -/
structure DMAChannel where
  src : Nat
  dest : Nat
  count : Nat
  src_incr : IncrType
  dest_incr : IncrType
  -- Lean reserves the keyword this field is called in the source, hence the
  -- trailing underscore
  repeat_ : Bool
  word : Bool
  timing : TimingMode
  irq : Bool
  enabled : Bool

/-- Embedding of DMAChannel::new. -/
def DMAChannel.new : DMAChannel :=
  { src := 0, dest := 0, count := 0, src_incr := .Inc, dest_incr := .Inc
    repeat_ := false, word := true, timing := .Now, irq := false, enabled := false }

/-- Embedding of struct DMA (the Rust [DMAChannel; 4] becomes a function). -/
structure DMA where
  channels : Nat → DMAChannel

/-- Embedding of DMA::new. -/
def DMA.new : DMA := { channels := fun _ => DMAChannel.new }

/-- Update one DMA channel in place. -/
def DMA.setChannel (d : DMA) (i : Nat) (c : DMAChannel) : DMA :=
  { channels := fun j => if j = i then c else d.channels j }

/-! Parsed palette view (src/mem/palette.rs). -/

/-- Embedding of struct Palette: expanded 32-bit RGBA entries. -/
structure Palette where
  bg : Nat → Nat
  sprite : Nat → Nat

/-- Embedding of Palette::new. -/
def Palette.new : Palette := { bg := fun _ => 0, sprite := fun _ => 0 }

/-- Embedding of palette::high_to_true: 15-bit RGB to 32-bit RGBA. -/
def high_to_true (color : Nat) : Nat :=
  let red := color % 32
  let green := (color >>> 5) % 32
  let blue := (color >>> 10) % 32
  0xFF000000 + red * 2 ^ 19 + green * 2 ^ 11 + blue * 2 ^ 3

/-! The Memory bus (src/mem/mod.rs).  The parsed LCD and OAM sprite views are
not modelled (see the header comment); all other fields of the Rust struct
are present. -/

/-- Embedding of struct Memory: raw bytes plus the modelled parsed views and
the ROM waitstate configuration. -/
structure Memory where
  raw : RawMemory
  dma : DMA
  int : Interrupt
  palette : Palette
  rom_n_cycle : Nat
  rom_s_cycle_fast : Bool

/-- Embedding of Memory::new. -/
def Memory.new : Memory :=
  { raw := .new, dma := .new, int := .new, palette := .new
    rom_n_cycle := 4, rom_s_cycle_fast := false }

/-- Embedding of Memory::update_int_byte: refresh the parsed interrupt view
after a byte write into the interrupt window.  IF uses XOR against the
written bits (the code comment says this emulates acknowledge-by-writing-1).
No arm can panic: the WSCNT 2-bit field covers all four cases. -/
def Memory.update_int_byte (m : Memory) (addr val : Nat) : Memory :=
  if addr = IME then
    { m with int := { m.int with master_enabled := get_bit val 0 } }
  else if addr = IE_LO then
    { m with int := { m.int with enabled :=
      { m.int.enabled with
        vblank := get_bit val 0, hblank := get_bit val 1, vcount := get_bit val 2
        timer := fun i => if i = 0 then get_bit val 3 else if i = 1 then get_bit val 4
          else if i = 2 then get_bit val 5 else if i = 3 then get_bit val 6
          else m.int.enabled.timer i
        serial := get_bit val 7 } } }
  else if addr = IE_HI then
    { m with int := { m.int with enabled :=
      { m.int.enabled with
        dma := fun i => if i = 0 then get_bit val 0 else if i = 1 then get_bit val 1
          else if i = 2 then get_bit val 2 else if i = 3 then get_bit val 3
          else m.int.enabled.dma i
        keypad := get_bit val 4, gamepak := get_bit val 5 } } }
  else if addr = IF_LO then
    { m with int := { m.int with triggered :=
      { m.int.triggered with
        vblank := xor m.int.triggered.vblank (get_bit val 0)
        hblank := xor m.int.triggered.hblank (get_bit val 1)
        vcount := xor m.int.triggered.vcount (get_bit val 2)
        timer := fun i => if i = 0 then xor (m.int.triggered.timer 0) (get_bit val 3)
          else if i = 1 then xor (m.int.triggered.timer 1) (get_bit val 4)
          else if i = 2 then xor (m.int.triggered.timer 2) (get_bit val 5)
          else if i = 3 then xor (m.int.triggered.timer 3) (get_bit val 6)
          else m.int.triggered.timer i
        serial := xor m.int.triggered.serial (get_bit val 7) } } }
  else if addr = IF_HI then
    { m with int := { m.int with triggered :=
      { m.int.triggered with
        dma := fun i => if i = 0 then xor (m.int.triggered.dma 0) (get_bit val 0)
          else if i = 1 then xor (m.int.triggered.dma 1) (get_bit val 1)
          else if i = 2 then xor (m.int.triggered.dma 2) (get_bit val 2)
          else if i = 3 then xor (m.int.triggered.dma 3) (get_bit val 3)
          else m.int.triggered.dma i
        keypad := xor m.int.triggered.keypad (get_bit val 4)
        gamepak := xor m.int.triggered.gamepak (get_bit val 5) } } }
  else if addr = WSCNT_LO then
    { m with
      rom_n_cycle :=
        match (val >>> 2) % 4 with
        | 0 => 4
        | 1 => 3
        | 2 => 2
        | _ => 8
      rom_s_cycle_fast := (val >>> 4) % 2 = 1 }
  else m

/-- Embedding of Memory::update_int_hw. -/
def Memory.update_int_hw (m : Memory) (addr val : Nat) : Memory :=
  (m.update_int_byte addr (val % 256)).update_int_byte (addr + 1) ((val >>> 8) % 256)

/-- Embedding of Memory::update_int_word. -/
def Memory.update_int_word (m : Memory) (addr val : Nat) : Memory :=
  (m.update_int_hw addr val).update_int_hw (addr + 2) (val >>> 16)

/-- Embedding of Memory::update_dma_byte: re-parse the register the written
byte belongs to from raw memory.  The enum unwraps cannot fail (2-bit masked
values); the final match arm panic is unreachable since offset % 12 < 12. -/
def Memory.update_dma_byte (m : Memory) (addr _val : Nat) : Option Memory :=
  let offset := addr - DMA_START
  let channel_num := offset / 12
  let ch := m.dma.channels channel_num
  if offset % 12 ≤ 3 then do
    let src ← m.raw.get_word (addr - addr % 4)
    let mask := if channel_num = 0 then 0x7FFFFFF else 0xFFFFFFF
    return { m with dma := m.dma.setChannel channel_num { ch with src := src &&& mask } }
  else if offset % 12 ≤ 7 then do
    let dest ← m.raw.get_word (addr - addr % 4)
    let mask := if channel_num = 3 then 0xFFFFFFF else 0x7FFFFFF
    return { m with dma := m.dma.setChannel channel_num { ch with dest := dest &&& mask } }
  else if offset % 12 ≤ 9 then do
    let count ← m.raw.get_halfword (addr - addr % 2)
    return { m with dma := m.dma.setChannel channel_num { ch with count := count &&& 0x3FFF } }
  else do
    let reg ← m.raw.get_halfword (addr - addr % 2)
    let ch1 : DMAChannel :=
      { ch with
        dest_incr := IncrType.from_u16 ((reg >>> 5) % 4)
        src_incr := IncrType.from_u16 ((reg >>> 7) % 4)
        repeat_ := get_bit reg 9
        word := get_bit reg 10
        timing := TimingMode.from_u16 ((reg >>> 12) % 4)
        irq := get_bit reg 14
        enabled := get_bit reg 15 }
    let ch2 := if ch1.count = 0 then { ch1 with count := 0x4000 } else ch1
    return { m with dma := m.dma.setChannel channel_num ch2 }

/-- Embedding of Memory::update_dma_hw. -/
def Memory.update_dma_hw (m : Memory) (addr val : Nat) : Option Memory := do
  let m1 ← m.update_dma_byte addr (val % 256)
  m1.update_dma_byte (addr + 1) ((val >>> 8) % 256)

/-- Embedding of Memory::update_dma_word. -/
def Memory.update_dma_word (m : Memory) (addr val : Nat) : Option Memory := do
  let m1 ← m.update_dma_hw addr val
  m1.update_dma_hw (addr + 2) (val >>> 16)

/-- Embedding of Memory::update_pal_byte: re-expand the 16-bit color the
written byte belongs to into the 32-bit parsed palette. -/
def Memory.update_pal_byte (m : Memory) (addr _val : Nat) : Option Memory := do
  let high_color ← m.raw.get_halfword (addr - addr % 2)
  let offset := addr - PAL_START
  let idx := (offset / 2) % 256
  if addr ≤ 0x50001FF then
    return { m with palette := { m.palette with
      bg := fun j => if j = idx then high_to_true high_color else m.palette.bg j } }
  else
    return { m with palette := { m.palette with
      sprite := fun j => if j = idx then high_to_true high_color else m.palette.sprite j } }

/-- Embedding of Memory::update_pal_hw. -/
def Memory.update_pal_hw (m : Memory) (addr val : Nat) : Option Memory := do
  let m1 ← m.update_pal_byte addr (val % 256)
  m1.update_pal_byte (addr + 1) ((val >>> 8) % 256)

/-- Embedding of Memory::update_pal_word. -/
def Memory.update_pal_word (m : Memory) (addr val : Nat) : Option Memory := do
  let m1 ← m.update_pal_hw addr val
  m1.update_pal_hw (addr + 2) (val >>> 16)

/-- Stand-in for Memory::update_oam_byte: the parsed sprite view is not
modelled (see header).  The source function mutates only that view, reads
raw memory, and cannot abort for in-window addresses, so on the modelled
state it is the identity. -/
def Memory.update_oam_byte (m : Memory) (_addr _val : Nat) : Option Memory :=
  some m

/-- Stand-in for Memory::update_oam_hw. -/
def Memory.update_oam_hw (m : Memory) (_addr _val : Nat) : Option Memory :=
  some m

/-- Stand-in for Memory::update_oam_word. -/
def Memory.update_oam_word (m : Memory) (_addr _val : Nat) : Option Memory :=
  some m

/-- Stand-in for Memory::update_graphics_byte: the parsed LCD view is not
modelled (see header).  The source function mutates only that view and
cannot abort for in-window addresses, so on the modelled state it is the
identity. -/
def Memory.update_graphics_byte (m : Memory) (_addr _val : Nat) : Option Memory :=
  some m

/-- Stand-in for Memory::update_graphics_hw. -/
def Memory.update_graphics_hw (m : Memory) (_addr _val : Nat) : Option Memory :=
  some m

/-- Stand-in for Memory::update_graphics_word. -/
def Memory.update_graphics_word (m : Memory) (_addr _val : Nat) : Option Memory :=
  some m

/-- Embedding of Memory::get_byte: canonicalize then read raw. -/
def Memory.get_byte (m : Memory) (addr : Nat) : Option Nat :=
  m.raw.get_byte (canonicalize_addr addr)

/-- Embedding of Memory::get_halfword. -/
def Memory.get_halfword (m : Memory) (addr : Nat) : Option Nat :=
  m.raw.get_halfword (canonicalize_addr addr)

/-- Embedding of Memory::get_word. -/
def Memory.get_word (m : Memory) (addr : Nat) : Option Nat :=
  m.raw.get_word (canonicalize_addr addr)

/-- Embedding of Memory::set_byte: canonicalize, write raw, then refresh the
parsed view owning the written window, if any. -/
def Memory.set_byte (m : Memory) (addr val : Nat) : Option Memory := do
  let addr := canonicalize_addr addr
  let raw1 ← m.raw.set_byte addr val
  let m1 : Memory := { m with raw := raw1 }
  if GRAPHICS_START ≤ addr ∧ addr ≤ GRAPHICS_END then m1.update_graphics_byte addr val
  else if DMA_START ≤ addr ∧ addr ≤ DMA_END then m1.update_dma_byte addr val
  else if INT_START ≤ addr ∧ addr ≤ INT_END then return m1.update_int_byte addr val
  else if OAM_START ≤ addr ∧ addr ≤ OAM_END then m1.update_oam_byte addr val
  else if PAL_START ≤ addr ∧ addr ≤ PAL_END then m1.update_pal_byte addr val
  else return m1

/-- Embedding of Memory::set_halfword. -/
def Memory.set_halfword (m : Memory) (addr val : Nat) : Option Memory := do
  let addr := canonicalize_addr addr
  let raw1 ← m.raw.set_halfword addr val
  let m1 : Memory := { m with raw := raw1 }
  if GRAPHICS_START ≤ addr ∧ addr ≤ GRAPHICS_END then m1.update_graphics_hw addr val
  else if DMA_START ≤ addr ∧ addr ≤ DMA_END then m1.update_dma_hw addr val
  else if INT_START ≤ addr ∧ addr ≤ INT_END then return m1.update_int_hw addr val
  else if OAM_START ≤ addr ∧ addr ≤ OAM_END then m1.update_oam_hw addr val
  else if PAL_START ≤ addr ∧ addr ≤ PAL_END then m1.update_pal_hw addr val
  else return m1

/-- Embedding of Memory::set_word. -/
def Memory.set_word (m : Memory) (addr val : Nat) : Option Memory := do
  let addr := canonicalize_addr addr
  let raw1 ← m.raw.set_word addr val
  let m1 : Memory := { m with raw := raw1 }
  if GRAPHICS_START ≤ addr ∧ addr ≤ GRAPHICS_END then m1.update_graphics_word addr val
  else if DMA_START ≤ addr ∧ addr ≤ DMA_END then m1.update_dma_word addr val
  else if INT_START ≤ addr ∧ addr ≤ INT_END then return m1.update_int_word addr val
  else if OAM_START ≤ addr ∧ addr ≤ OAM_END then m1.update_oam_word addr val
  else if PAL_START ≤ addr ∧ addr ≤ PAL_END then m1.update_pal_word addr val
  else return m1

/-- Embedding of Memory::on_dma_finish_hook: if the channel requested an IRQ,
latch its IF bit in both the parsed view and the raw IF high byte (the source
writes raw.io directly). -/
def Memory.on_dma_finish_hook (m : Memory) (channel : Nat) : Memory :=
  if (m.dma.channels channel).irq then
    { m with
      int := { m.int with triggered := { m.int.triggered with
        dma := fun i => if i = channel then true else m.int.triggered.dma i } }
      raw := { m.raw with io := fun j =>
        (if j = IF_HI - IO_START then m.raw.io (IF_HI - IO_START) ||| (1 <<< channel)
         else m.raw.io j) } }
  else m

/-- Embedding of the byte-copy loop inside Memory::run_dma.  The source calls
IncrType::update_addr but discards its return value (update_addr takes its
argument by value and returns the new address, which is never re-assigned),
so src and dest stay fixed for the whole loop; this embedding reproduces
that. -/
def runDmaLoop (raw : RawMemory) (src dest : Nat) : Nat → Option RawMemory
  | 0 => some raw
  | n + 1 => do
    let v ← raw.get_byte src
    let raw1 ← raw.set_byte dest v
    runDmaLoop raw1 src dest n

/-- Embedding of Memory::run_dma.  Note two faithful details: the iteration
count is the u16 product count * chunk_size, which wraps modulo 2^16 in
release builds (0x4000 * 4 wraps to 0), and the copy loop never advances src
or dest (see runDmaLoop). -/
def Memory.run_dma (m : Memory) (channel_num : Nat) : Option Memory := do
  let ch := m.dma.channels channel_num
  let src := if ch.word then ch.src - ch.src % 4 else ch.src - ch.src % 2
  let dest := if ch.word then ch.dest - ch.dest % 4 else ch.dest - ch.dest % 2
  let chunk_size := if ch.word then 4 else 2
  let iters := (ch.count * chunk_size) % 65536
  let raw1 ← runDmaLoop m.raw src dest iters
  let ch1 : DMAChannel :=
    { ch with src := src, dest := if ch.dest_incr = .Reload then ch.dest else dest }
  let raw2 ← raw1.set_word (DMA_SAD channel_num) ch1.src
  let raw3 ← raw2.set_word (DMA_DAD channel_num) ch1.dest
  let m1 : Memory := { m with raw := raw3, dma := m.dma.setChannel channel_num ch1 }
  let m2 ← (do
    if ch1.repeat_ then
      return m1
    else
      let ch2 := { ch1 with enabled := false }
      let old_reg ← m1.raw.get_word (DMA_CNT channel_num)
      let raw4 ← m1.raw.set_word (DMA_CNT channel_num) (old_reg &&& 0xFFFF7FFF)
      return { m1 with raw := raw4, dma := m1.dma.setChannel channel_num ch2 })
  return m2.on_dma_finish_hook channel_num

/-- Embedding of Memory::check_dma: scan channels 0..3 in priority order and
run every enabled channel whose timing matches the trigger. -/
def Memory.check_dma (m : Memory) (timing : TimingMode) : Option Memory :=
  [0, 1, 2, 3].foldlM
    (fun (acc : Memory) i =>
      if (acc.dma.channels i).enabled ∧ (acc.dma.channels i).timing = timing then
        acc.run_dma i
      else
        some acc)
    m

/-! The CPU (src/cpu/mod.rs, src/cpu/status_reg.rs). -/

/-- Embedding of enum CPUMode.  The seven architectural modes plus INVALID:
src/cpu/mod.rs matches on CPUMode::INVALID (reached when an undefined 5-bit
mode pattern is written to a PSR), so the embedded enum carries it even
though src/cpu/status_reg.rs omits the variant. -/
inductive CPUMode where
  | USR | FIQ | IRQ | SVC | ABT | UND | SYS | INVALID
deriving DecidableEq

/-- Numeric value of each mode (the enum discriminants; INVALID has none in
the source and is never converted, so it maps to 0 here). -/
def CPUMode.toBits : CPUMode → Nat
  | .USR => 0b10000
  | .FIQ => 0b10001
  | .IRQ => 0b10010
  | .SVC => 0b10011
  | .ABT => 0b10111
  | .UND => 0b11011
  | .SYS => 0b11111
  | .INVALID => 0

/-- Embedding of enum InstructionSet. -/
inductive InstructionSet where
  | ARM | THUMB
deriving DecidableEq

/-- Embedding of struct PSR: the unpacked program status register. -/
structure PSR where
  neg : Bool
  zero : Bool
  carry : Bool
  overflow : Bool
  irq : Bool
  fiq : Bool
  isa : InstructionSet
  mode : CPUMode
deriving DecidableEq

/-- Embedding of PSR::new: all flags false, ARM, SVC mode.  In particular
the irq and fiq fields (bits 7 and 6 of the packed word) start out false. -/
def PSR.new : PSR :=
  { neg := false, zero := false, carry := false, overflow := false
    irq := false, fiq := false, isa := .ARM, mode := .SVC }

/-- Embedding of PSR::to_u32: pack the fields into the 32-bit word. -/
def PSR.to_u32 (p : PSR) : Nat :=
  (if p.neg then 2 ^ 31 else 0) +
  (if p.zero then 2 ^ 30 else 0) +
  (if p.carry then 2 ^ 29 else 0) +
  (if p.overflow then 2 ^ 28 else 0) +
  (if p.irq then 2 ^ 7 else 0) +
  (if p.fiq then 2 ^ 6 else 0) +
  (match p.isa with | .ARM => 0 | .THUMB => 2 ^ 5) +
  p.mode.toBits

/-- Embedding of struct CPU: register file with the banked side arrays, the
PSRs, the flush flag and the memory bus. -/
structure CPU where
  r : Nat → Nat
  r_fiq : Nat → Nat
  r_irq : Nat → Nat
  r_und : Nat → Nat
  r_abt : Nat → Nat
  r_svc : Nat → Nat
  cpsr : PSR
  spsr_svc : PSR
  spsr_abt : PSR
  spsr_und : PSR
  spsr_irq : PSR
  spsr_fiq : PSR
  should_flush : Bool
  mem : Memory

/-- Embedding of CPU::new: everything zeroed, PSRs fresh, no flush pending. -/
def CPU.new : CPU :=
  { r := fun _ => 0, r_fiq := fun _ => 0, r_irq := fun _ => 0
    r_und := fun _ => 0, r_abt := fun _ => 0, r_svc := fun _ => 0
    cpsr := .new, spsr_svc := .new, spsr_abt := .new, spsr_und := .new
    spsr_irq := .new, spsr_fiq := .new, should_flush := false, mem := .new }

/-- Embedding of CPU::get_reg: route through the mode-dependent banks; `none`
models the panics (register out of range, INVALID mode on R13/R14). -/
def CPU.get_reg (c : CPU) (reg : Nat) : Option Nat :=
  if reg = 15 ∨ reg ≤ 7 then some (c.r reg)
  else if reg ≤ 12 then
    some (match c.cpsr.mode with
          | .FIQ => c.r_fiq (reg - 8)
          | _ => c.r reg)
  else if reg ≤ 14 then
    match c.cpsr.mode with
    | .USR | .SYS => some (c.r reg)
    | .FIQ => some (c.r_fiq (reg - 8))
    | .IRQ => some (c.r_irq (reg - 13))
    | .UND => some (c.r_und (reg - 13))
    | .ABT => some (c.r_abt (reg - 13))
    | .SVC => some (c.r_svc (reg - 13))
    | .INVALID => none
  else none

/-- Embedding of CPU::set_reg. -/
def CPU.set_reg (c : CPU) (reg val : Nat) : Option CPU :=
  if reg = 15 ∨ reg ≤ 7 then some { c with r := updFn c.r reg val }
  else if reg ≤ 12 then
    some (match c.cpsr.mode with
          | .FIQ => { c with r_fiq := updFn c.r_fiq (reg - 8) val }
          | _ => { c with r := updFn c.r reg val })
  else if reg ≤ 14 then
    match c.cpsr.mode with
    | .USR | .SYS => some { c with r := updFn c.r reg val }
    | .FIQ => some { c with r_fiq := updFn c.r_fiq (reg - 8) val }
    | .IRQ => some { c with r_irq := updFn c.r_irq (reg - 13) val }
    | .UND => some { c with r_und := updFn c.r_und (reg - 13) val }
    | .ABT => some { c with r_abt := updFn c.r_abt (reg - 13) val }
    | .SVC => some { c with r_svc := updFn c.r_svc (reg - 13) val }
    | .INVALID => none
  else none

/-- Embedding of CPU::instruction_size: 2 bytes in THUMB, 4 in ARM. -/
def CPU.instruction_size (c : CPU) : Nat :=
  if c.cpsr.isa = .THUMB then 2 else 4

/-- Embedding of CPU::get_spsr: the SPSR of the current mode.  USR panics;
SYS returns the CPSR itself. -/
def CPU.get_spsr (c : CPU) : Option PSR :=
  match c.cpsr.mode with
  | .USR => none
  | .FIQ => some c.spsr_fiq
  | .IRQ => some c.spsr_irq
  | .SVC => some c.spsr_svc
  | .ABT => some c.spsr_abt
  | .UND => some c.spsr_und
  | .SYS => some c.cpsr
  | .INVALID => none

/-- Embedding of CPU::restore_cpsr: copy the current mode's SPSR over CPSR. -/
def CPU.restore_cpsr (c : CPU) : Option CPU :=
  (c.get_spsr).map fun p => { c with cpsr := p }

/-- Embedding of CPU::change_mode: save CPSR into the target mode's SPSR
(USR restores instead; SYS is unimplemented in the source), then switch the
CPSR mode field. -/
def CPU.change_mode (c : CPU) (new_mode : CPUMode) : Option CPU := do
  let c1 ← (match new_mode with
    | .USR => c.restore_cpsr
    | .FIQ => some { c with spsr_fiq := c.cpsr }
    | .IRQ => some { c with spsr_irq := c.cpsr }
    | .SVC => some { c with spsr_svc := c.cpsr }
    | .ABT => some { c with spsr_abt := c.cpsr }
    | .UND => some { c with spsr_und := c.cpsr }
    | .SYS => none
    | .INVALID => none)
  return { c1 with cpsr := { c1.cpsr with mode := new_mode } }

/-- Embedding of enum InterruptType. -/
inductive InterruptType where
  | Reset | Undefined | SWI | PrefetchAbort | DataAbort | IRQ | FIQ
deriving DecidableEq

/-- Embedding of InterruptType::get_handler_addr (only SWI and IRQ are
implemented; the rest hit unimplemented!). -/
def InterruptType.get_handler_addr : InterruptType → Option Nat
  | .SWI => some 0x8
  | .IRQ => some 0x18
  | _ => none

/-- Embedding of InterruptType::get_cpu_mode. -/
def InterruptType.get_cpu_mode : InterruptType → Option CPUMode
  | .SWI => some .SVC
  | .IRQ => some .IRQ
  | _ => none

/-- Embedding of CPU::handle_interrupt: switch mode (saving CPSR into the
target SPSR), clear the irq flag for IRQ, store PC minus the instruction
size into the banked LR, force ARM state and jump to the vector.  The
should_flush flag is not touched anywhere in this function. -/
def CPU.handle_interrupt (c : CPU) (t : InterruptType) : Option CPU := do
  let mode ← t.get_cpu_mode
  let c1 ← c.change_mode mode
  let c2 := if t = .IRQ then { c1 with cpsr := { c1.cpsr with irq := false } } else c1
  let pc ← c2.get_reg 15
  let next_ins_addr := (pc + 2 ^ 32 - c2.instruction_size) % 2 ^ 32
  let c3 ← c2.set_reg 14 next_ins_addr
  let c4 : CPU := { c3 with cpsr := { c3.cpsr with isa := .ARM } }
  let handler ← t.get_handler_addr
  c4.set_reg 15 handler

/-- Embedding of CPU::check_interrupts: dispatch an IRQ when the cpsr.irq
flag is set and the interrupt controller reports a pending interrupt. -/
def CPU.check_interrupts (c : CPU) : Option CPU :=
  if c.cpsr.irq && c.mem.int.pending_interrupts then
    c.handle_interrupt .IRQ
  else
    some c

/-! The barrel shifter (src/cpu/arm/data.rs). -/

/-- Two's-complement arithmetic right shift on 32-bit values encoded as Nat:
the result of Rust `((v as i32) >> n) as u32` for v < 2^32 and n ≤ 32. -/
def asr32 (v n : Nat) : Nat :=
  (v >>> n) + (if get_bit v 31 then 2 ^ 32 - 2 ^ (32 - n) else 0)

/-- 32-bit rotate right (Rust u32::rotate_right: the amount acts modulo 32). -/
def rotr32 (v n : Nat) : Nat :=
  (v >>> (n % 32)) + (v % 2 ^ (n % 32)) * 2 ^ (32 - n % 32)

/-- Embedding of cpu::arm::data::get_shift_amount: decode the 8-bit shift
specifier into (amount-is-immediate, amount).  `none` models the panics (R15
as shift-amount register, the invalid bit3=1 ∧ bit0=1 encoding). -/
def CPU.get_shift_amount (c : CPU) (shift : Nat) : Option (Bool × Nat) :=
  if get_bit shift 3 = false ∧ get_bit shift 0 = true then
    let rs := get_nibble shift 4
    if rs = 15 then none
    else (c.get_reg rs).map fun v => (false, v % 256)
  else if get_bit shift 0 = false then
    some (true, (shift >>> 3) % 32)
  else none

/-- Embedding of cpu::arm::data::apply_shift: apply the decoded shift to val,
returning the shifted value and the shifter carry.  Register-specified
amounts of 0 return early with the old carry; otherwise the four shift types
follow the Rust arms, including the special immediate encodings for
LSR/ASR/ROR #0. -/
def CPU.apply_shift (c : CPU) (shift val : Nat) : Option (Nat × Bool) := do
  let (is_shift_immediate, shift_amount) ← c.get_shift_amount shift
  if is_shift_immediate = false ∧ shift_amount = 0 then
    return (val, c.cpsr.carry)
  else if get_bit shift 2 = false ∧ get_bit shift 1 = false then
    -- logical shift left
    if shift_amount = 0 then
      return (val, c.cpsr.carry)
    else if 32 < shift_amount then
      return (0, false)
    else if shift_amount = 32 then
      return (0, get_bit val 0)
    else
      return ((val <<< shift_amount) % 2 ^ 32, get_bit val (32 - shift_amount))
  else if get_bit shift 2 = false ∧ get_bit shift 1 = true then
    -- logical shift right (LSR #0 encodes LSR #32)
    if shift_amount = 0 then
      return (0, get_bit val 31)
    else if 32 < shift_amount then
      return (0, false)
    else
      let shifted_partially := val >>> (shift_amount - 1)
      return (shifted_partially >>> 1, decide (shifted_partially % 2 = 1))
  else if get_bit shift 2 = true ∧ get_bit shift 1 = false then
    -- arithmetic shift right (ASR #0 encodes ASR #32)
    if shift_amount = 0 ∨ 32 ≤ shift_amount then
      return ((if get_bit val 31 then 0xFFFFFFFF else 0), get_bit val 31)
    else
      let shifted_partially := asr32 val (shift_amount - 1)
      return (asr32 shifted_partially 1, decide (shifted_partially % 2 = 1))
  else
    -- rotate right (ROR #0 encodes RRX)
    if shift_amount = 0 then
      return ((val >>> 1) + (if c.cpsr.carry then 2 ^ 31 else 0), get_bit val 0)
    else
      let result := rotr32 val shift_amount
      return (result, get_bit result 31)

/-- Shifter semantics transcribed from the spec's section 4.2 table, row by
row, as a function of the shift type (bits 1..2 of the specifier), whether
the amount was immediate, the amount, the value and the carry-in.  This is
the specification side of claim C7, deliberately written from the spec's
words rather than from the code. -/
def shifterSpec (ty : Nat) (isImm : Bool) (amount val : Nat) (cIn : Bool) : Nat × Bool :=
  if isImm = false ∧ amount = 0 then (val, cIn)
  else if ty = 0 then
    if amount = 0 then (val, cIn)
    else if amount ≤ 31 then ((val <<< amount) % 2 ^ 32, get_bit val (32 - amount))
    else if amount = 32 then (0, get_bit val 0)
    else (0, false)
  else if ty = 1 then
    if amount = 0 then (0, get_bit val 31)
    else if amount ≤ 31 then (val >>> amount, get_bit val (amount - 1))
    else if amount = 32 then (0, get_bit val 31)
    else (0, false)
  else if ty = 2 then
    if amount = 0 ∨ 32 ≤ amount then
      ((if get_bit val 31 then 0xFFFFFFFF else 0), get_bit val 31)
    else (asr32 val amount, get_bit val (amount - 1))
  else
    if amount = 0 then ((if cIn then 2 ^ 31 else 0) + (val >>> 1), get_bit val 0)
    else (rotr32 val amount, get_bit (rotr32 val amount) 31)

/-! Block data transfer (src/cpu/arm/block_trans.rs). -/

/-- Embedding of struct BlockDataTransfer. -/
structure BlockDataTransfer where
  pre_index : Bool
  offset_up : Bool
  force : Bool
  write_back : Bool
  load : Bool
  rn : Nat
  register_list : Nat

/-- State threaded through the 16-iteration transfer loop of
BlockDataTransfer::run: the cpu, the running address, the (possibly
suppressed) write-back flag and the is_first marker. -/
structure BTState where
  cpu : CPU
  addr : Nat
  write_back : Bool
  is_first : Bool

/-- One iteration of the BlockDataTransfer::run loop, for loop index i. -/
def btStep (ins : BlockDataTransfer) (bits : Nat) (st : BTState) (i : Nat) :
    Option BTState := do
  if (bits >>> i) % 2 = 1 then
    let addr1 := if ins.pre_index then
      (if ins.offset_up then (st.addr + 4) % 2 ^ 32 else (st.addr + 2 ^ 32 - 4) % 2 ^ 32)
      else st.addr
    let reg := if ins.offset_up then i else 15 - i
    let (cpu1, wb1) ← (do
      if ins.load then
        let wb := if reg = ins.rn then false else st.write_back
        let memval ← st.cpu.mem.get_word addr1
        let c ← st.cpu.set_reg reg memval
        pure (c, wb)
      else
        if reg = ins.rn ∧ st.is_first = false then
          let mem1 ← st.cpu.mem.set_word addr1 addr1
          pure ({ st.cpu with mem := mem1 }, st.write_back)
        else
          let regval ← st.cpu.get_reg reg
          let mem1 ← st.cpu.mem.set_word addr1 regval
          pure ({ st.cpu with mem := mem1 }, st.write_back))
    let addr2 := if ins.pre_index then addr1 else
      (if ins.offset_up then (addr1 + 4) % 2 ^ 32 else (addr1 + 2 ^ 32 - 4) % 2 ^ 32)
    return { cpu := cpu1, addr := addr2, write_back := wb1, is_first := false }
  else
    return st

/-- Embedding of BlockDataTransfer::run.  `none` models the panics: R15 as
base, S bit in USR mode, write-back combined with the forced user bank. -/
def BlockDataTransfer.run (ins : BlockDataTransfer) (cpu : CPU) : Option CPU := do
  if ins.rn = 15 then none
  else if ins.force ∧ cpu.cpsr.mode = .USR then none
  else
    let is_pc_in_list := 2 ^ 15 ≤ ins.register_list
    let original_mode := cpu.cpsr.mode
    let (cpu1, force_user_bank) ← (do
      if ins.force then
        if is_pc_in_list ∧ ins.load then
          (cpu.restore_cpsr).map fun c => (c, false)
        else
          pure ({ cpu with cpsr := { cpu.cpsr with mode := .USR } }, true)
      else
        pure (cpu, false))
    if force_user_bank ∧ ins.write_back then none
    else
      let cpu2 := if is_pc_in_list ∧ ins.load then { cpu1 with should_flush := true } else cpu1
      let addr0 ← cpu2.get_reg ins.rn
      let bits := if ins.offset_up then ins.register_list % 2 ^ 16
        else reverse_bits16 ins.register_list
      let st0 : BTState :=
        { cpu := cpu2, addr := addr0, write_back := ins.write_back, is_first := true }
      let st ← (List.range 16).foldlM (btStep ins bits) st0
      let cpu3 ← (if st.write_back then st.cpu.set_reg ins.rn st.addr else pure st.cpu)
      let cpu4 := if force_user_bank then
        { cpu3 with cpsr := { cpu3.cpsr with mode := original_mode } } else cpu3
      let pc ← cpu4.get_reg 15
      if is_pc_in_list ∧ pc % 2 = 1 then
        let cpu5 : CPU := { cpu4 with cpsr := { cpu4.cpsr with isa := .THUMB } }
        cpu5.set_reg 15 (pc - 1)
      else
        return cpu4

/-! Specification-side definitions (transcribed from the spec's words, for
the refinement-style claims; they are compared against the embedded code). -/

/-- Specification-side decode of the interrupt window, written from the
spec's words: the parsed interrupt view equals the decode of the raw bytes
(IME bit 0; IE/IF bit layout VBlank 0, HBlank 1, VCount 2, Timer0..3 6:3,
Serial 7, DMA0..3 11:8, Keypad 12, Gamepak 13; WSCNT 2-bit waitstate field
mapping to 4/3/2/8 cycles and the fast-sequential flag in bit 4). -/
def int_view_decodes_raw (m : Memory) : Prop :=
  let ie_lo := m.raw.io (IE_LO - IO_START)
  let ie_hi := m.raw.io (IE_HI - IO_START)
  let if_lo := m.raw.io (IF_LO - IO_START)
  let if_hi := m.raw.io (IF_HI - IO_START)
  m.int.master_enabled = get_bit (m.raw.io (IME - IO_START)) 0 ∧
  m.int.enabled.vblank = get_bit ie_lo 0 ∧
  m.int.enabled.hblank = get_bit ie_lo 1 ∧
  m.int.enabled.vcount = get_bit ie_lo 2 ∧
  m.int.enabled.timer 0 = get_bit ie_lo 3 ∧
  m.int.enabled.timer 1 = get_bit ie_lo 4 ∧
  m.int.enabled.timer 2 = get_bit ie_lo 5 ∧
  m.int.enabled.timer 3 = get_bit ie_lo 6 ∧
  m.int.enabled.serial = get_bit ie_lo 7 ∧
  m.int.enabled.dma 0 = get_bit ie_hi 0 ∧
  m.int.enabled.dma 1 = get_bit ie_hi 1 ∧
  m.int.enabled.dma 2 = get_bit ie_hi 2 ∧
  m.int.enabled.dma 3 = get_bit ie_hi 3 ∧
  m.int.enabled.keypad = get_bit ie_hi 4 ∧
  m.int.enabled.gamepak = get_bit ie_hi 5 ∧
  m.int.triggered.vblank = get_bit if_lo 0 ∧
  m.int.triggered.hblank = get_bit if_lo 1 ∧
  m.int.triggered.vcount = get_bit if_lo 2 ∧
  m.int.triggered.timer 0 = get_bit if_lo 3 ∧
  m.int.triggered.timer 1 = get_bit if_lo 4 ∧
  m.int.triggered.timer 2 = get_bit if_lo 5 ∧
  m.int.triggered.timer 3 = get_bit if_lo 6 ∧
  m.int.triggered.serial = get_bit if_lo 7 ∧
  m.int.triggered.dma 0 = get_bit if_hi 0 ∧
  m.int.triggered.dma 1 = get_bit if_hi 1 ∧
  m.int.triggered.dma 2 = get_bit if_hi 2 ∧
  m.int.triggered.dma 3 = get_bit if_hi 3 ∧
  m.int.triggered.keypad = get_bit if_hi 4 ∧
  m.int.triggered.gamepak = get_bit if_hi 5

/-- Scenario 6 of the spec, embedded: program DMA3 with SAD = 0x08000300,
DAD = 0x0910032A, count = 0 (parsed as 0x4000), CNT = enabled + word-size +
timing Now (halfword 0x8400 at 0x40000DE), then fire check_dma(Now). -/
def dma_scenario6 : Option Memory := do
  let m1 ← Memory.new.set_word 0x40000D4 0x08000300
  let m2 ← m1.set_word 0x40000D8 0x0910032A
  let m3 ← m2.set_halfword 0x40000DE 0x8400
  m3.check_dma .Now

/-! Theorems.  Helper lemmas come first; each claim then has exactly one main
theorem (with its witness or counterexample where required). -/

/-- The get_bit embedding coincides with Nat.testBit. -/
theorem get_bit_eq_testBit (v i : Nat) : get_bit v i = Nat.testBit v i := by
  simp [get_bit, Nat.testBit_to_div_mod, Nat.shiftRight_eq_div_pow]

/-- On the base VRAM block the full canonicalization agrees with the inlined
helper, justifying the unfolding of the source's recursive call. -/
theorem canonicalize_addr_vram_inline (a : Nat) (h1 : 0x6000000 ≤ a)
    (h2 : a ≤ 0x601FFFF) : canonicalize_addr a = canonicalize_vram_base a := by
  rw [canonicalize_addr, canonicalize_vram_base]
  rw [if_neg (by intro hx; omega), if_neg (by intro hx; omega), if_neg (by intro hx; omega), if_neg (by intro hx; omega),
    if_neg (by intro hx; omega), if_neg (by intro hx; omega)]
  by_cases h : a ≤ 0x6017FFF
  · rw [if_pos (by omega)]
    simp only [canonicalize_vram_base, if_pos h]
  · rw [if_neg (by intro hx; omega), if_pos (by omega)]
    simp only [canonicalize_vram_base, if_neg h]

/-- C4: evaluation of the code at the failing input (the freshly created
core).  A new core has all registers and all RAM zeroed, mode SVC, ARM
state — but the packed initial CPSR is 0x13: bits 7 (I) and 6 (F) are 0, not
1 as the claim (and the doc comment on CPUWrapper::new) requires, so IRQ and
FIQ start out enabled. -/
theorem C4_initial_state :
    (∀ i, CPU.new.r i = 0) ∧
    (∀ i, CPU.new.mem.raw.iwram i = 0) ∧
    (∀ i, CPU.new.mem.raw.ewram i = 0) ∧
    CPU.new.cpsr.mode = CPUMode.SVC ∧
    CPU.new.cpsr.isa = InstructionSet.ARM ∧
    CPU.new.r 15 = 0 ∧
    PSR.to_u32 CPU.new.cpsr = 0x13 ∧
    Nat.testBit (PSR.to_u32 CPU.new.cpsr) 7 = false ∧
    Nat.testBit (PSR.to_u32 CPU.new.cpsr) 6 = false ∧
    CPU.new.cpsr.irq = false ∧
    CPU.new.cpsr.fiq = false := by
  refine ⟨fun i => rfl, fun i => rfl, fun i => rfl, rfl, rfl, rfl, ?_, ?_, ?_, rfl, rfl⟩
  · decide
  · decide
  · decide

/-- C5 (amended): handle_interrupt(IRQ) saves the CPSR into SPSR_irq and
switches to IRQ mode, clears the CPSR irq bit, writes PC minus the current
instruction size into the banked LR_irq, forces ARM state and jumps to
vector 0x18 — but it does not flush the pipeline: the should_flush flag (and
the pipeline buffer, which lives in CPUWrapper) is left untouched, so the
stale fetched/decoded instructions are still executed. -/
theorem C5_irq_dispatch (c : CPU) :
    c.handle_interrupt .IRQ = some
      { c with
        spsr_irq := c.cpsr
        cpsr := { c.cpsr with mode := .IRQ, irq := false, isa := .ARM }
        r_irq := updFn c.r_irq 1 ((c.r 15 + 2 ^ 32 - c.instruction_size) % 2 ^ 32)
        r := updFn c.r 15 0x18 } := by
  simp only [CPU.handle_interrupt, InterruptType.get_cpu_mode, CPU.change_mode,
    CPU.instruction_size, CPU.get_reg, CPU.set_reg, Option.bind_eq_bind,
    Option.some_bind, reduceIte, reduceCtorEq]
  rfl

/-- C5 (counterexample to the claim as stated): for a concrete CPU about to
dispatch an IRQ (pending interrupt, PC = 0x100), handle_interrupt performs
the dispatch but leaves should_flush = false, whereas the claim says the
pipeline is flushed (in this core a flush happens only when the executor
sets should_flush, which CPUWrapper::step then acts on). -/
theorem C5_no_flush_counterexample :
    ((CPU.new.set_reg 15 0x100).bind fun c => c.handle_interrupt .IRQ).map
      (fun c => (c.should_flush, c.r 15, c.r_irq 1, c.cpsr.mode))
      = some (false, 0x18, 0xFC, CPUMode.IRQ) := by
  rfl

/-- Canonicalization leaves cartridge-ROM addresses untouched (only the RAM
mirror ranges are folded). -/
theorem canon_rom_fix (a : Nat) (h1 : 0x8000000 ≤ a) (h2 : a ≤ 0xDFFFFFF) :
    canonicalize_addr a = a := by
  rw [canonicalize_addr]
  rw [if_neg (by intro hx; omega), if_neg (by intro hx; omega), if_neg (by intro hx; omega), if_neg (by intro hx; omega),
    if_neg (by intro hx; omega), if_neg (by intro hx; omega), if_neg (by intro hx; omega), if_neg (by intro hx; omega),
    if_neg (by intro hx; omega), if_neg (by intro hx; omega)]

/-- A raw byte store anywhere in the cartridge-ROM range reaches the
panicking ROM arm of get_loc_mut. -/
theorem set_byte_rom_none (rm : RawMemory) (a v : Nat) (h1 : 0x8000000 ≤ a)
    (h2 : a ≤ 0xDFFFFFF) : rm.set_byte a v = none := by
  rw [RawMemory.set_byte, RawMemory.get_loc_mut]
  rw [if_neg (by simp [SYSROM_END]; omega), if_neg (by simp [EWRAM_START, EWRAM_END]; omega),
    if_neg (by simp [IWRAM_START, IWRAM_END]; omega), if_neg (by simp [IO_START, IO_END]; omega),
    if_neg (by simp [PAL_START, PAL_END]; omega), if_neg (by simp [VRAM_START, VRAM_END]; omega),
    if_neg (by simp [OAM_START, OAM_END]; omega),
    if_pos (by simp [ROM_START, ROM_MIRROR2_END]; omega)]
  rfl

/-- C6 (amended): a byte, halfword or word store anywhere in the
cartridge-ROM address range 0x08000000-0x0DFFFFFF aborts the program
(get_loc_mut panics with "trying to write to ROM" on the first byte of the
store), rather than being silently dropped; reads of addresses that decode
to no segment return 0, as do reads past the end of the owning segment. -/
theorem C6_rom_writes_abort_reads_zero :
    (∀ (m : Memory) (a v : Nat), 0x8000000 ≤ a → a ≤ 0xDFFFFFF →
      m.set_byte a v = none) ∧
    (∀ (m : Memory) (a v : Nat), 0x8000000 ≤ a → a ≤ 0xDFFFFFF →
      m.set_halfword a v = none) ∧
    (∀ (m : Memory) (a v : Nat), 0x8000000 ≤ a → a ≤ 0xDFFFFFF →
      m.set_word a v = none) ∧
    (∀ (rm : RawMemory) (a : Nat), rm.get_loc a = some none →
      rm.get_byte a = some 0) ∧
    (∀ (rm : RawMemory) (a : Nat) (s : SegName) (idx : Nat),
      rm.get_loc a = some (some (s, idx)) → rm.segLen s ≤ idx →
      rm.get_byte a = some 0) := by
  refine ⟨fun m a v h1 h2 => ?_, fun m a v h1 h2 => ?_, fun m a v h1 h2 => ?_,
    fun rm a h => ?_, fun rm a s idx h h2 => ?_⟩
  · rw [Memory.set_byte, canon_rom_fix a h1 h2,
      set_byte_rom_none m.raw a v h1 h2]
    rfl
  · rw [Memory.set_halfword, canon_rom_fix a h1 h2, RawMemory.set_halfword,
      set_byte_rom_none m.raw a (get_byte_at v 0) h1 h2]
    rfl
  · rw [Memory.set_word, canon_rom_fix a h1 h2, RawMemory.set_word,
      set_byte_rom_none m.raw a (get_byte_at v 0) h1 h2]
    rfl
  · rw [RawMemory.get_byte, h]
    rfl
  · rw [RawMemory.get_byte, h]
    simp [h2]

/-- C6 (counterexample to the claim as stated): storing one byte at the
first cartridge-ROM address on a fresh core aborts (none), and in particular
is not the claimed silent no-op (some of the unchanged memory). -/
theorem C6_counterexample :
    Memory.set_byte Memory.new 0x8000000 1 = none ∧
    Memory.set_byte Memory.new 0x8000000 1 ≠ some Memory.new := by
  refine ⟨rfl, ?_⟩
  intro h
  exact Option.noConfusion
    ((rfl : (none : Option Memory) = Memory.set_byte Memory.new 0x8000000 1).trans h)

/-- C6 witness: the amended theorem applied at concrete inputs — a byte,
halfword and word write to 0x8000000 each abort; a read of unmapped
0x1000000 yields 0; a read past the end of a zero-length loaded ROM yields
0. -/
theorem C6_witness :
    Memory.set_byte Memory.new 0x8000000 1 = none ∧
    Memory.set_halfword Memory.new 0x8000000 0x1234 = none ∧
    Memory.set_word Memory.new 0x8000000 0x12345678 = none ∧
    RawMemory.get_byte RawMemory.new 0x1000000 = some 0 ∧
    RawMemory.get_byte { RawMemory.new with rom := some [] } 0x8000000 = some 0 := by
  refine ⟨C6_rom_writes_abort_reads_zero.1 Memory.new 0x8000000 1 (by norm_num) (by norm_num),
    C6_rom_writes_abort_reads_zero.2.1 Memory.new 0x8000000 0x1234 (by norm_num) (by norm_num),
    C6_rom_writes_abort_reads_zero.2.2.1 Memory.new 0x8000000 0x12345678 (by norm_num) (by norm_num),
    C6_rom_writes_abort_reads_zero.2.2.2.1 RawMemory.new 0x1000000 (by rfl),
    C6_rom_writes_abort_reads_zero.2.2.2.2 { RawMemory.new with rom := some [] } 0x8000000
      SegName.rom 0 (by rfl) (by decide)⟩

/-- Bits 0..7 of a value survive masking to the low byte. -/
theorem get_bit_mod256 (v i : Nat) (h : i < 8) : get_bit (v % 256) i = get_bit v i := by
  rw [get_bit_eq_testBit, get_bit_eq_testBit,
    show (256 : Nat) = 2 ^ 8 from rfl, Nat.testBit_mod_two_pow]
  simp [h]

/-- Bit i of the high byte of a 16-bit value is bit 8+i of the value. -/
theorem get_bit_hibyte (v i : Nat) (h : i < 8) :
    get_bit ((v >>> 8) % 256) i = get_bit v (8 + i) := by
  rw [get_bit_mod256 _ _ h, get_bit_eq_testBit, get_bit_eq_testBit,
    Nat.testBit_shiftRight]

/-- C1 (amended): a halfword write of mask v to the IF register at
0x04000202 XORs v into the pending-interrupt flags (write-1-toggles):
every bit written as 1 flips the corresponding pending flag — clearing it
when it was set, setting it when it was clear — and every bit written as 0
leaves it unchanged; IE and IME are untouched, and the raw IF bytes are
overwritten with the mask itself.  This equals f AND NOT v only when every
1-bit of v is already set in f. -/
theorem C1_if_write_toggles (m : Memory) (v : Nat) (hv : v < 65536) :
    ∃ m2, m.set_halfword 0x4000202 v = some m2 ∧
      m2.int.triggered.vblank = xor m.int.triggered.vblank (get_bit v 0) ∧
      m2.int.triggered.hblank = xor m.int.triggered.hblank (get_bit v 1) ∧
      m2.int.triggered.vcount = xor m.int.triggered.vcount (get_bit v 2) ∧
      m2.int.triggered.timer 0 = xor (m.int.triggered.timer 0) (get_bit v 3) ∧
      m2.int.triggered.timer 1 = xor (m.int.triggered.timer 1) (get_bit v 4) ∧
      m2.int.triggered.timer 2 = xor (m.int.triggered.timer 2) (get_bit v 5) ∧
      m2.int.triggered.timer 3 = xor (m.int.triggered.timer 3) (get_bit v 6) ∧
      m2.int.triggered.serial = xor m.int.triggered.serial (get_bit v 7) ∧
      m2.int.triggered.dma 0 = xor (m.int.triggered.dma 0) (get_bit v 8) ∧
      m2.int.triggered.dma 1 = xor (m.int.triggered.dma 1) (get_bit v 9) ∧
      m2.int.triggered.dma 2 = xor (m.int.triggered.dma 2) (get_bit v 10) ∧
      m2.int.triggered.dma 3 = xor (m.int.triggered.dma 3) (get_bit v 11) ∧
      m2.int.triggered.keypad = xor m.int.triggered.keypad (get_bit v 12) ∧
      m2.int.triggered.gamepak = xor m.int.triggered.gamepak (get_bit v 13) ∧
      m2.int.enabled = m.int.enabled ∧
      m2.int.master_enabled = m.int.master_enabled ∧
      m2.raw.io (IF_LO - IO_START) = v % 256 ∧
      m2.raw.io (IF_HI - IO_START) = (v >>> 8) % 256 := by
  have hc : canonicalize_addr 0x4000202 = 0x4000202 := rfl
  refine ⟨_, rfl, ?_, ?_, ?_, ?_, ?_, ?_, ?_, ?_, ?_, ?_, ?_, ?_, ?_, ?_, rfl, rfl, rfl, rfl⟩
  all_goals
    simp only [Memory.set_halfword, Memory.update_int_hw, Memory.update_int_byte,
      IME, IE_LO, IE_HI, IF_LO, IF_HI, WSCNT_LO, IO_START, hc, reduceIte,
      Nat.reduceAdd, Nat.reduceSub, Nat.reduceEqDiff,
      get_bit_mod256 v 0 (by norm_num), get_bit_mod256 v 1 (by norm_num),
      get_bit_mod256 v 2 (by norm_num), get_bit_mod256 v 3 (by norm_num),
      get_bit_mod256 v 4 (by norm_num), get_bit_mod256 v 5 (by norm_num),
      get_bit_mod256 v 6 (by norm_num), get_bit_mod256 v 7 (by norm_num),
      get_bit_hibyte v 0 (by norm_num), get_bit_hibyte v 1 (by norm_num),
      get_bit_hibyte v 2 (by norm_num), get_bit_hibyte v 3 (by norm_num),
      get_bit_hibyte v 4 (by norm_num), get_bit_hibyte v 5 (by norm_num)]

/-- C1 (counterexample to the claim as stated): on a fresh core the prior IF
value f is 0; writing the mask 0xA (bits 1 and 3) must, per the claim, leave
every written bit clear (f AND NOT m = 0), yet afterwards the HBlank and
Timer0 pending flags read back true — the XOR set them. -/
theorem C1_counterexample :
    (Memory.new.set_halfword 0x4000202 0xA).map
      (fun m => (m.int.triggered.hblank, m.int.triggered.timer 0)) =
      some (true, true) := by
  rfl

/-- C1 witness: the amended theorem applied at the fresh core with mask
0xA: the write succeeds and flips bits 1 and 3 of the pending flags. -/
theorem C1_witness :
    (0xA : Nat) < 65536 ∧
    ∃ m2, Memory.new.set_halfword 0x4000202 0xA = some m2 ∧
      m2.int.triggered.hblank = xor Memory.new.int.triggered.hblank (get_bit 0xA 1) := by
  refine ⟨by norm_num, ?_⟩
  obtain ⟨m2, h1, _, h2, hrest⟩ := C1_if_write_toggles Memory.new 0xA (by norm_num)
  exact ⟨m2, h1, h2⟩

instance int_view_decodes_raw_decidable (m : Memory) : Decidable (int_view_decodes_raw m) := by
  unfold int_view_decodes_raw
  infer_instance

/-- C2 (counterexample): the invariant "raw I/O bytes and the parsed view
decode-agree after every completed write" fails on the IF register and on
the DMA count registers.  Two successive byte writes of 1 to IF
(0x04000202) both complete; after the second, the raw IF byte still holds 1
(plain store) while the parsed vblank-pending flag has been toggled back to
false (XOR), so decoding the raw bytes does not yield the parsed values.
And a halfword write to DMA3's control register while its raw count
halfword at 0x040000DC holds 0 leaves the parsed count at 0x4000 (the
count-of-0-means-maximum substitution reads the parsed channel, not raw),
while decoding the raw count bytes yields 0 AND 0x3FFF = 0. -/
theorem C2_counterexample :
    ((Memory.new.set_byte 0x4000202 1).bind fun m1 => m1.set_byte 0x4000202 1).map
      (fun m2 => (decide (int_view_decodes_raw m2), m2.int.triggered.vblank,
        m2.raw.io (IF_LO - IO_START))) = some (false, false, 1) ∧
    (Memory.new.set_halfword 0x40000DE 0x0400).map
      (fun m2 => ((m2.dma.channels 3).count, m2.raw.get_halfword 0x40000DC))
      = some (0x4000, some 0) ∧
    (0x4000 : Nat) ≠ 0 &&& 0x3FFF := by
  refine ⟨rfl, rfl, by norm_num⟩

/-- C3: evaluation of the code at the failing input (the spec's scenario 6).
check_dma(Now) on the programmed DMA3 word copy completes, clears the
enabled flag, clears the high bit of the raw CNT word (0x8400 becomes
0x0400) and runs the finish hook (which leaves IF untouched because irq is
off) — but not a single byte is copied: the u16 iteration count
count * chunk_size = 0x4000 * 4 wraps to 0, and even for nonzero counts the
loop never advances src or dest because the result of
IncrType::update_addr is discarded (src/mem/io/dma.rs lines 118-126).
Every memory segment outside the I/O registers is exactly as it was, where
the claim requires 0x10000 bytes to have been copied to successive
addresses. -/
theorem C3_dma_copies_nothing :
    ∃ m, dma_scenario6 = some m ∧
      (m.dma.channels 3).enabled = false ∧
      (m.dma.channels 3).src = 0x8000300 ∧
      (m.dma.channels 3).dest = 0x9100328 ∧
      (m.dma.channels 3).count = 0x4000 ∧
      m.raw.get_word 0x40000DE = some 0x0400 ∧
      m.int.triggered.dma 3 = false ∧
      (0x4000 * 4) % 65536 = 0 ∧
      m.raw.ewram = RawMemory.new.ewram ∧
      m.raw.iwram = RawMemory.new.iwram ∧
      m.raw.vram = RawMemory.new.vram ∧
      m.raw.oam = RawMemory.new.oam ∧
      m.raw.pal = RawMemory.new.pal ∧
      m.raw.sysrom = RawMemory.new.sysrom ∧
      m.raw.rom = none := by
  exact ⟨_, rfl, rfl, rfl, rfl, rfl, rfl, rfl, rfl, rfl, rfl, rfl, rfl, rfl, rfl, rfl⟩

/-- C10: multi-byte stores canonicalize only the base address.  A word store
at IWRAM 0x03007FFE (the last halfword of the segment) keeps the two bytes
that fit (readable back at 0x03007FFE/0x03007FFF), while the trailing two
bytes go to raw addresses 0x03008000/0x03008001, which decode to no segment
and are silently dropped — they do not wrap into the mirror copy, so IWRAM
bytes 0 and 1 (the canonical cells of 0x03008000/0x03008001) are unchanged,
for every prior memory state and value. -/
theorem C10_word_store_tail_dropped (m : Memory) (v : Nat) :
    ∃ m2, m.set_word 0x3007FFE v = some m2 ∧
      m2.get_byte 0x3007FFE = some (get_byte_at v 0) ∧
      m2.get_byte 0x3007FFF = some (get_byte_at v 8) ∧
      m2.get_byte 0x3008000 = m.get_byte 0x3008000 ∧
      m2.get_byte 0x3008001 = m.get_byte 0x3008001 ∧
      m2.raw.iwram 0 = m.raw.iwram 0 ∧
      m2.raw.iwram 1 = m.raw.iwram 1 := by
  exact ⟨_, rfl, rfl, rfl, rfl, rfl, rfl, rfl⟩

set_option maxRecDepth 1000000

set_option maxHeartbeats 4000000

/-- Splitting List.range at an interior point. -/
theorem range_split (n m : Nat) (h : n ≤ m) :
    List.range m = List.range n ++ List.range' n (m - n) := by
  rw [List.range_eq_range', List.range_eq_range']
  have hh := List.range'_append 0 n (m - n) 1
  rw [Nat.one_mul, Nat.zero_add, show m - n + n = m from by omega] at hh
  rw [← hh]

/-- get_reg only reads the register banks and the mode, never memory. -/
theorem get_reg_set_mem (c : CPU) (M : Memory) (r : Nat) :
    CPU.get_reg { c with mem := M } r = c.get_reg r := rfl

/-- Frame property of one iteration of the BlockDataTransfer::run loop with
load = false: a store step only replaces the cpu's memory (never a register
bank, the mode or the write-back flag), and is_first stays true exactly
until a listed loop index has been processed. -/
theorem btStep_store_frame (ins : BlockDataTransfer) (bits : Nat) (st st' : BTState)
    (j : Nat) (hload : ins.load = false)
    (h : btStep ins bits st j = some st') :
    (∃ M, st'.cpu = { st.cpu with mem := M }) ∧
    st'.write_back = st.write_back ∧
    (st'.is_first = true ↔ (st.is_first = true ∧ (bits >>> j) % 2 = 0)) := by
  rw [btStep] at h
  by_cases hbit : (bits >>> j) % 2 = 1
  · rw [if_pos hbit] at h
    simp only [hload, Bool.false_eq_true, if_false, Option.bind_eq_bind] at h
    by_cases hcond : ((if ins.offset_up = true then j else 15 - j) = ins.rn ∧
        st.is_first = false)
    · rw [if_pos hcond] at h
      rcases Option.bind_eq_some.mp h with ⟨p, hinner, hpure⟩
      obtain ⟨cpu1, wb1⟩ := p
      simp only [Option.pure_def, Option.some.injEq] at hpure
      rcases Option.bind_eq_some.mp hinner with ⟨mem1, hsw, hp⟩
      simp only [Option.pure_def, Option.some.injEq, Prod.mk.injEq] at hp
      obtain ⟨hpc, hpw⟩ := hp
      subst hpure
      exact ⟨⟨mem1, hpc.symm⟩, hpw.symm,
        ⟨fun hff => Bool.noConfusion hff, fun hx => absurd hx.2 (by omega)⟩⟩
    · rw [if_neg hcond] at h
      rcases Option.bind_eq_some.mp h with ⟨p, hinner, hpure⟩
      obtain ⟨cpu1, wb1⟩ := p
      simp only [Option.pure_def, Option.some.injEq] at hpure
      rcases Option.bind_eq_some.mp hinner with ⟨rv, hrv, hrest2⟩
      rcases Option.bind_eq_some.mp hrest2 with ⟨mem1, hsw, hp⟩
      simp only [Option.pure_def, Option.some.injEq, Prod.mk.injEq] at hp
      obtain ⟨hpc, hpw⟩ := hp
      subst hpure
      exact ⟨⟨mem1, hpc.symm⟩, hpw.symm,
        ⟨fun hff => Bool.noConfusion hff, fun hx => absurd hx.2 (by omega)⟩⟩
  · rw [if_neg hbit] at h
    simp only [Option.pure_def, Option.some.injEq] at h
    subst h
    refine ⟨⟨st.cpu.mem, rfl⟩, rfl, ?_⟩
    have hz : (bits >>> j) % 2 = 0 := by omega
    simp [hz]

/-- Frame property of the whole store loop (iterated btStep). -/
theorem btFold_store_frame (ins : BlockDataTransfer) (bits : Nat)
    (hload : ins.load = false) :
    ∀ (js : List Nat) (st st' : BTState),
      js.foldlM (btStep ins bits) st = some st' →
      (∃ M, st'.cpu = { st.cpu with mem := M }) ∧
      st'.write_back = st.write_back ∧
      (st'.is_first = true ↔ (st.is_first = true ∧ ∀ j ∈ js, (bits >>> j) % 2 = 0)) := by
  intro js
  induction js with
  | nil =>
    intro st st' h
    rw [List.foldlM_nil] at h
    simp only [Option.pure_def, Option.some.injEq] at h
    subst h
    refine ⟨⟨st.cpu.mem, rfl⟩, rfl, ?_⟩
    simp
  | cons j js ih =>
    intro st st' h
    rw [List.foldlM_cons] at h
    rcases Option.bind_eq_some.mp h with ⟨st1, hstep, hrest⟩
    obtain ⟨⟨M1, hcpu1⟩, hwb1, hisf1⟩ := btStep_store_frame ins bits st st1 j hload hstep
    obtain ⟨⟨M2, hcpu2⟩, hwb2, hisf2⟩ := ih st1 st' hrest
    refine ⟨⟨M2, ?_⟩, hwb2.trans hwb1, ?_⟩
    · rw [hcpu2, hcpu1]
    · rw [List.forall_mem_cons, hisf2, hisf1]
      tauto

/-- The store at the base register's own slot, extracted from the full
16-iteration loop: splitting the fold at the base's loop index i₀, the
state st1 just before that slot still holds the entry value of the base
register, is_first is true there exactly when no lower listed index exists,
and the slot's iteration is exactly one set_word of the pre-indexed running
address a, whose value is the unmodified base when first and a itself
otherwise. -/
theorem btRun_loop_base_store (ins : BlockDataTransfer) (bits i₀ : Nat)
    (st0 stF : BTState) (addr0 : Nat)
    (hload : ins.load = false)
    (hreg_eq : (if ins.offset_up = true then i₀ else 15 - i₀) = ins.rn)
    (hi0le : i₀ ≤ 15)
    (hbit : (bits >>> i₀) % 2 = 1)
    (hreg : st0.cpu.get_reg ins.rn = some addr0)
    (hfirst0 : st0.is_first = true)
    (hfold : (List.range 16).foldlM (btStep ins bits) st0 = some stF) :
    ∃ st1 a mem1,
      (List.range i₀).foldlM (btStep ins bits) st0 = some st1 ∧
      st1.cpu.get_reg ins.rn = some addr0 ∧
      (st1.is_first = true ↔ ∀ j, j < i₀ → (bits >>> j) % 2 = 0) ∧
      a = (if ins.pre_index = true
        then (if ins.offset_up = true then (st1.addr + 4) % 2 ^ 32
              else (st1.addr + 2 ^ 32 - 4) % 2 ^ 32)
        else st1.addr) ∧
      st1.cpu.mem.set_word a (if st1.is_first = true then addr0 else a) = some mem1 ∧
      btStep ins bits st1 i₀ = some
        { cpu := { st1.cpu with mem := mem1 },
          addr := (if ins.pre_index = true then a
            else (if ins.offset_up = true then (a + 4) % 2 ^ 32
                  else (a + 2 ^ 32 - 4) % 2 ^ 32)),
          write_back := st1.write_back, is_first := false } := by
  rw [range_split i₀ 16 (by omega), List.foldlM_append] at hfold
  rcases Option.bind_eq_some.mp hfold with ⟨st1, hpre, hsuf⟩
  rw [show (16 : Nat) - i₀ = (15 - i₀) + 1 from by omega, List.range'_succ,
    List.foldlM_cons] at hsuf
  rcases Option.bind_eq_some.mp hsuf with ⟨st2, hstep, hrest⟩
  obtain ⟨⟨M1, hcpuM⟩, hwb1, hisf⟩ :=
    btFold_store_frame ins bits hload (List.range i₀) st0 st1 hpre
  have hgr : st1.cpu.get_reg ins.rn = some addr0 := by
    rw [hcpuM, get_reg_set_mem]
    exact hreg
  have hisf' : st1.is_first = true ↔ ∀ j, j < i₀ → (bits >>> j) % 2 = 0 := by
    rw [hisf]
    simp only [hfirst0, List.mem_range, true_and]
  have hstep₀ := hstep
  rw [btStep, if_pos hbit] at hstep
  simp only [hload, Bool.false_eq_true, if_false, hreg_eq, eq_self_iff_true, true_and,
    Option.bind_eq_bind] at hstep
  by_cases hfst : st1.is_first = true
  · rw [if_neg (by simp [hfst] : ¬st1.is_first = false)] at hstep
    rcases Option.bind_eq_some.mp hstep with ⟨p, hinner, hpure⟩
    obtain ⟨cpu1, wb1⟩ := p
    simp only [Option.pure_def, Option.some.injEq] at hpure
    rw [hgr] at hinner
    simp only [Option.some_bind] at hinner
    rcases Option.bind_eq_some.mp hinner with ⟨mem1, hsw, hp⟩
    simp only [Option.pure_def, Option.some.injEq, Prod.mk.injEq] at hp
    obtain ⟨hpc, hpw⟩ := hp
    refine ⟨st1, _, mem1, hpre, hgr, hisf', rfl, ?_, ?_⟩
    · rw [hfst, if_pos rfl]
      exact hsw
    · rw [hstep₀, ← hpure, ← hpc, ← hpw]
  · have hfst' : st1.is_first = false := by
      simpa using hfst
    rw [if_pos hfst'] at hstep
    rcases Option.bind_eq_some.mp hstep with ⟨p, hinner, hpure⟩
    obtain ⟨cpu1, wb1⟩ := p
    simp only [Option.pure_def, Option.some.injEq] at hpure
    rcases Option.bind_eq_some.mp hinner with ⟨mem1, hsw, hp⟩
    simp only [Option.pure_def, Option.some.injEq, Prod.mk.injEq] at hp
    obtain ⟨hpc, hpw⟩ := hp
    refine ⟨st1, _, mem1, hpre, hgr, hisf', rfl, ?_, ?_⟩
    · rw [hfst', if_neg (by decide : ¬((false : Bool) = true))]
      exact hsw
    · rw [hstep₀, ← hpure, ← hpc, ← hpw]

/-- C9 (amended): in EVERY store multiple (load = false) whose register list
contains the base register Rn, the store the run loop of
src/cpu/arm/block_trans.rs performs at Rn's own slot writes the unmodified
base when Rn is the first register stored (no lower loop index is listed),
and otherwise writes the running transfer address of that very slot - the
literal set_word(addr, addr) of the source - not the final write-back value
of Rn.  Stated over the code's own loop: whenever run completes, splitting
its 16-iteration fold at Rn's slot index i₀ yields the state st1 just
before the slot; the base register still holds its entry value addr0 there;
is_first is true exactly when no lower index is listed; and the slot's
iteration is exactly one set_word of the pre-indexed running address a with
value addr0 if first, a itself otherwise. -/
theorem C9_stm_base_store_value (ins : BlockDataTransfer) (cpu : CPU)
    (hload : ins.load = false) (hrn : ins.rn < 16)
    (hrun : (ins.run cpu).isSome = true)
    (bits i₀ : Nat) (cpu2 : CPU)
    (hbits : bits = if ins.offset_up = true then ins.register_list % 2 ^ 16
      else reverse_bits16 ins.register_list)
    (hi0 : i₀ = if ins.offset_up = true then ins.rn else 15 - ins.rn)
    (hcpu2 : cpu2 = if ins.force = true
      then { cpu with cpsr := { cpu.cpsr with mode := CPUMode.USR } } else cpu)
    (hbit : (bits >>> i₀) % 2 = 1) :
    ∃ addr0 st1 a mem1,
      cpu2.get_reg ins.rn = some addr0 ∧
      (List.range i₀).foldlM (btStep ins bits)
        { cpu := cpu2, addr := addr0, write_back := ins.write_back, is_first := true }
        = some st1 ∧
      st1.cpu.get_reg ins.rn = some addr0 ∧
      (st1.is_first = true ↔ ∀ j, j < i₀ → (bits >>> j) % 2 = 0) ∧
      a = (if ins.pre_index = true
        then (if ins.offset_up = true then (st1.addr + 4) % 2 ^ 32
              else (st1.addr + 2 ^ 32 - 4) % 2 ^ 32)
        else st1.addr) ∧
      st1.cpu.mem.set_word a (if st1.is_first = true then addr0 else a) = some mem1 ∧
      btStep ins bits st1 i₀ = some
        { cpu := { st1.cpu with mem := mem1 },
          addr := (if ins.pre_index = true then a
            else (if ins.offset_up = true then (a + 4) % 2 ^ 32
                  else (a + 2 ^ 32 - 4) % 2 ^ 32)),
          write_back := st1.write_back, is_first := false } := by
  obtain ⟨c2, hc2⟩ := Option.isSome_iff_exists.mp hrun
  have h15 : ¬ins.rn = 15 := by
    intro h
    rw [BlockDataTransfer.run, if_pos h] at hc2
    exact Option.noConfusion hc2
  have hreg_eq : (if ins.offset_up = true then i₀ else 15 - i₀) = ins.rn := by
    rw [hi0]
    by_cases hup : ins.offset_up = true <;> simp [hup] <;> omega
  have hi0le : i₀ ≤ 15 := by
    rw [hi0]
    by_cases hup : ins.offset_up = true <;> simp [hup] <;> omega
  rw [BlockDataTransfer.run, if_neg h15] at hc2
  have husr : ¬(ins.force = true ∧ cpu.cpsr.mode = CPUMode.USR) := by
    intro h
    rw [if_pos h] at hc2
    exact Option.noConfusion hc2
  rw [if_neg husr] at hc2
  simp only [hload, Bool.false_eq_true, and_false, if_false, Option.bind_eq_bind] at hc2
  by_cases hf : ins.force = true
  · simp only [hf, eq_self_iff_true, if_true, Option.pure_def, Option.some_bind] at hc2
    by_cases hwb : ins.write_back = true
    · rw [if_pos ⟨trivial, hwb⟩] at hc2
      exact Option.noConfusion hc2
    · rw [if_neg (fun hh => hwb hh.2)] at hc2
      rcases Option.bind_eq_some.mp hc2 with ⟨addr0, hreg, hc3⟩
      rw [← hbits] at hc3
      rcases Option.bind_eq_some.mp hc3 with ⟨stF, hfold, hc4⟩
      rw [hcpu2, if_pos hf]
      obtain ⟨st1, a, mem1, hpre, hgr, hisf', ha, hsw, hbt⟩ :=
        btRun_loop_base_store ins bits i₀
          { cpu := { cpu with cpsr := { cpu.cpsr with mode := CPUMode.USR } },
            addr := addr0, write_back := ins.write_back, is_first := true }
          stF addr0 hload hreg_eq hi0le hbit hreg rfl hfold
      exact ⟨addr0, st1, a, mem1, hreg, hpre, hgr, hisf', ha, hsw, hbt⟩
  · have hf' : ins.force = false := by
      simpa using hf
    simp only [hf', Bool.false_eq_true, if_false, Option.pure_def, Option.some_bind] at hc2
    rw [if_neg (fun hh => hh.1)] at hc2
    rcases Option.bind_eq_some.mp hc2 with ⟨addr0, hreg, hc3⟩
    rw [← hbits] at hc3
    rcases Option.bind_eq_some.mp hc3 with ⟨stF, hfold, hc4⟩
    rw [hcpu2, if_neg hf]
    obtain ⟨st1, a, mem1, hpre, hgr, hisf', ha, hsw, hbt⟩ :=
      btRun_loop_base_store ins bits i₀
        { cpu := cpu, addr := addr0, write_back := ins.write_back, is_first := true }
        stF addr0 hload hreg_eq hi0le hbit hreg rfl hfold
    exact ⟨addr0, st1, a, mem1, hreg, hpre, hgr, hisf', ha, hsw, hbt⟩

/-- C9 witness: the amended theorem applied at the concrete STMIA R1!,
{R0, R1} with R0 = 0x123, R1 = 0x3000000 (base second in the list): the
slot's store writes the running address a itself (is_first is false there
since loop index 0 is listed). -/
theorem C9_witness :
    ∃ addr0 st1 a mem1,
      CPU.get_reg { CPU.new with r := updFn (updFn CPU.new.r 0 0x123) 1 0x3000000 } 1
        = some addr0 ∧
      (List.range 1).foldlM
        (btStep
          { pre_index := false, offset_up := true, force := false,
            write_back := true, load := false, rn := 1, register_list := 3 } 3)
        { cpu := { CPU.new with r := updFn (updFn CPU.new.r 0 0x123) 1 0x3000000 },
          addr := addr0, write_back := true, is_first := true } = some st1 ∧
      st1.cpu.get_reg 1 = some addr0 ∧
      (st1.is_first = true ↔ ∀ j, j < 1 → ((3 : Nat) >>> j) % 2 = 0) ∧
      a = st1.addr ∧
      st1.cpu.mem.set_word a (if st1.is_first = true then addr0 else a) = some mem1 ∧
      btStep
          { pre_index := false, offset_up := true, force := false,
            write_back := true, load := false, rn := 1, register_list := 3 } 3 st1 1
        = some
          { cpu := { st1.cpu with mem := mem1 }, addr := (a + 4) % 2 ^ 32,
            write_back := st1.write_back, is_first := false } := by
  exact C9_stm_base_store_value
    { pre_index := false, offset_up := true, force := false, write_back := true,
      load := false, rn := 1, register_list := 3 }
    { CPU.new with r := updFn (updFn CPU.new.r 0 0x123) 1 0x3000000 }
    rfl (by norm_num) rfl 3 1
    { CPU.new with r := updFn (updFn CPU.new.r 0 0x123) 1 0x3000000 }
    rfl rfl rfl rfl

/-- C9 (counterexample to the claim as stated): concrete STMIA R1!, {R0,R1}
with R0 = 0x123 and R1 = 0x3000000.  The claim requires the value written to
memory for R1 (not first in the list) to be the updated base, i.e. the final
write-back value 0x3000008; the code stores 0x3000004 there instead. -/
theorem C9_counterexample :
    ((CPU.new.set_reg 0 0x123).bind (fun c => c.set_reg 1 0x3000000)).bind
      (fun c => (BlockDataTransfer.run
        { pre_index := false, offset_up := true, force := false, write_back := true,
          load := false, rn := 1, register_list := 3 } c).bind
        (fun c2 => (c2.mem.get_word 0x3000004).map (fun w => (w, c2.r 1))))
      = some (0x3000004, 0x3000008) ∧
    ((0x3000004 : Nat), (0x3000008 : Nat)).1 ≠ 0x3000008 := by
  exact ⟨rfl, by norm_num⟩

/-! Helper lemmas for the mirror round-trip claim: where each mirror range
canonicalizes to, and how raw set/get behave on each RAM segment. -/

/-- The five mirrored RAM ranges of the claim (EWRAM, IWRAM, palette, VRAM,
OAM, each together with all its mirrors). -/
def in_ram_mirror_range (a : Nat) : Prop :=
  (0x2000000 ≤ a ∧ a ≤ 0x2FFFFFF) ∨ (0x3000000 ≤ a ∧ a ≤ 0x3FFFFFF) ∨
  (0x5000000 ≤ a ∧ a ≤ 0x5FFFFFF) ∨ (0x6000000 ≤ a ∧ a ≤ 0x6FFFFFF) ∨
  (0x7000000 ≤ a ∧ a ≤ 0x7FFFFFF)

theorem canon_ewram (a : Nat) (h1 : 0x2000000 ≤ a) (h2 : a ≤ 0x2FFFFFF) :
    canonicalize_addr a = 0x2000000 + a % 0x40000 := by
  rw [canonicalize_addr, if_neg (by intro hx; omega), if_pos (by omega)]
  rfl

theorem canon_iwram (a : Nat) (h1 : 0x3000000 ≤ a) (h2 : a ≤ 0x3FFFFFF) :
    canonicalize_addr a = 0x3000000 + a % 0x8000 := by
  rw [canonicalize_addr, if_neg (by intro hx; omega), if_neg (by intro hx; omega), if_pos (by omega)]
  rfl

theorem canon_pal (a : Nat) (h1 : 0x5000000 ≤ a) (h2 : a ≤ 0x5FFFFFF) :
    canonicalize_addr a = 0x5000000 + a % 0x400 := by
  rw [canonicalize_addr, if_neg (by intro hx; omega), if_neg (by intro hx; omega), if_neg (by intro hx; omega),
    if_neg (by intro hx; omega), if_neg (by intro hx; omega), if_pos (by omega)]
  rfl

theorem canon_oam (a : Nat) (h1 : 0x7000000 ≤ a) (h2 : a ≤ 0x7FFFFFF) :
    canonicalize_addr a = 0x7000000 + a % 0x400 := by
  rw [canonicalize_addr, if_neg (by intro hx; omega), if_neg (by intro hx; omega), if_neg (by intro hx; omega),
    if_neg (by intro hx; omega), if_neg (by intro hx; omega), if_neg (by intro hx; omega), if_neg (by intro hx; omega),
    if_neg (by intro hx; omega), if_neg (by intro hx; omega), if_pos (by omega)]
  rfl

theorem canon_vram_range (a : Nat) (h1 : 0x6000000 ≤ a) (h2 : a ≤ 0x6FFFFFF) :
    0x6000000 ≤ canonicalize_addr a ∧ canonicalize_addr a ≤ 0x6017FFF := by
  rw [canonicalize_addr, if_neg (by intro hx; omega), if_neg (by intro hx; omega), if_neg (by intro hx; omega),
    if_neg (by intro hx; omega), if_neg (by intro hx; omega), if_neg (by intro hx; omega)]
  by_cases hA : a ≤ 0x6017FFF
  · rw [if_pos (by omega)]
    omega
  · rw [if_neg (by intro hx; omega)]
    by_cases hB : a ≤ 0x601FFFF
    · rw [if_pos (by omega)]
      omega
    · rw [if_neg (by intro hx; omega), if_pos (by omega)]
      have : a % 0x20000 < 0x20000 := Nat.mod_lt _ (by norm_num)
      simp only [canonicalize_vram_base, VRAM_START]
      split_ifs with h <;> omega

/-- Canonical addresses are fixed points of canonicalization on the RAM
segment ranges (needed to read back through Memory.get_byte). -/
theorem canon_seg_ranges (a : Nat) (ha : in_ram_mirror_range a) :
    (0x2000000 ≤ canonicalize_addr a ∧ canonicalize_addr a ≤ 0x203FFFF) ∨
    (0x3000000 ≤ canonicalize_addr a ∧ canonicalize_addr a ≤ 0x3007FFF) ∨
    (0x5000000 ≤ canonicalize_addr a ∧ canonicalize_addr a ≤ 0x50003FF) ∨
    (0x6000000 ≤ canonicalize_addr a ∧ canonicalize_addr a ≤ 0x6017FFF) ∨
    (0x7000000 ≤ canonicalize_addr a ∧ canonicalize_addr a ≤ 0x70003FF) := by
  rcases ha with ⟨h1, h2⟩ | ⟨h1, h2⟩ | ⟨h1, h2⟩ | ⟨h1, h2⟩ | ⟨h1, h2⟩
  · rw [canon_ewram a h1 h2]
    have := Nat.mod_lt a (show 0 < 0x40000 by norm_num)
    left; omega
  · rw [canon_iwram a h1 h2]
    have := Nat.mod_lt a (show 0 < 0x8000 by norm_num)
    right; left; omega
  · rw [canon_pal a h1 h2]
    have := Nat.mod_lt a (show 0 < 0x400 by norm_num)
    right; right; left; omega
  · exact Or.inr (Or.inr (Or.inr (Or.inl (canon_vram_range a h1 h2))))
  · rw [canon_oam a h1 h2]
    have := Nat.mod_lt a (show 0 < 0x400 by norm_num)
    right; right; right; right; omega

theorem get_loc_mut_ewram (rm : RawMemory) (c : Nat) (h1 : 0x2000000 ≤ c)
    (h2 : c ≤ 0x203FFFF) :
    rm.get_loc_mut c = some (some (.ewram, c - 0x2000000)) := by
  simp only [RawMemory.get_loc_mut, SYSROM_END, EWRAM_START, EWRAM_END]
  rw [if_neg (by intro hx; omega), if_pos (by omega)]

theorem get_loc_mut_iwram (rm : RawMemory) (c : Nat) (h1 : 0x3000000 ≤ c)
    (h2 : c ≤ 0x3007FFF) :
    rm.get_loc_mut c = some (some (.iwram, c - 0x3000000)) := by
  simp only [RawMemory.get_loc_mut, SYSROM_END, EWRAM_START, EWRAM_END, IWRAM_START, IWRAM_END]
  rw [if_neg (by intro hx; omega), if_neg (by intro hx; omega), if_pos (by omega)]

theorem get_loc_mut_pal (rm : RawMemory) (c : Nat) (h1 : 0x5000000 ≤ c)
    (h2 : c ≤ 0x50003FF) :
    rm.get_loc_mut c = some (some (.pal, c - 0x5000000)) := by
  simp only [RawMemory.get_loc_mut, SYSROM_END, EWRAM_START, EWRAM_END, IWRAM_START,
    IWRAM_END, IO_START, IO_END, PAL_START, PAL_END]
  rw [if_neg (by intro hx; omega), if_neg (by intro hx; omega), if_neg (by intro hx; omega), if_neg (by intro hx; omega),
    if_pos (by omega)]

theorem get_loc_mut_vram (rm : RawMemory) (c : Nat) (h1 : 0x6000000 ≤ c)
    (h2 : c ≤ 0x6017FFF) :
    rm.get_loc_mut c = some (some (.vram, c - 0x6000000)) := by
  simp only [RawMemory.get_loc_mut, SYSROM_END, EWRAM_START, EWRAM_END, IWRAM_START,
    IWRAM_END, IO_START, IO_END, PAL_START, PAL_END, VRAM_START, VRAM_END]
  rw [if_neg (by intro hx; omega), if_neg (by intro hx; omega), if_neg (by intro hx; omega), if_neg (by intro hx; omega),
    if_neg (by intro hx; omega), if_pos (by omega)]

theorem get_loc_mut_oam (rm : RawMemory) (c : Nat) (h1 : 0x7000000 ≤ c)
    (h2 : c ≤ 0x70003FF) :
    rm.get_loc_mut c = some (some (.oam, c - 0x7000000)) := by
  simp only [RawMemory.get_loc_mut, SYSROM_END, EWRAM_START, EWRAM_END, IWRAM_START,
    IWRAM_END, IO_START, IO_END, PAL_START, PAL_END, VRAM_START, VRAM_END,
    OAM_START, OAM_END]
  rw [if_neg (by intro hx; omega), if_neg (by intro hx; omega), if_neg (by intro hx; omega), if_neg (by intro hx; omega),
    if_neg (by intro hx; omega), if_neg (by intro hx; omega), if_pos (by omega)]

theorem get_loc_ewram (rm : RawMemory) (c : Nat) (h1 : 0x2000000 ≤ c)
    (h2 : c ≤ 0x203FFFF) :
    rm.get_loc c = some (some (.ewram, c - 0x2000000)) := by
  simp only [RawMemory.get_loc, SYSROM_END, EWRAM_START, EWRAM_END]
  rw [if_neg (by intro hx; omega), if_pos (by omega)]

theorem get_loc_iwram (rm : RawMemory) (c : Nat) (h1 : 0x3000000 ≤ c)
    (h2 : c ≤ 0x3007FFF) :
    rm.get_loc c = some (some (.iwram, c - 0x3000000)) := by
  simp only [RawMemory.get_loc, SYSROM_END, EWRAM_START, EWRAM_END, IWRAM_START, IWRAM_END]
  rw [if_neg (by intro hx; omega), if_neg (by intro hx; omega), if_pos (by omega)]

theorem get_loc_pal (rm : RawMemory) (c : Nat) (h1 : 0x5000000 ≤ c)
    (h2 : c ≤ 0x50003FF) :
    rm.get_loc c = some (some (.pal, c - 0x5000000)) := by
  simp only [RawMemory.get_loc, SYSROM_END, EWRAM_START, EWRAM_END, IWRAM_START,
    IWRAM_END, IO_START, IO_END, PAL_START, PAL_END]
  rw [if_neg (by intro hx; omega), if_neg (by intro hx; omega), if_neg (by intro hx; omega), if_neg (by intro hx; omega),
    if_pos (by omega)]

theorem get_loc_vram (rm : RawMemory) (c : Nat) (h1 : 0x6000000 ≤ c)
    (h2 : c ≤ 0x6017FFF) :
    rm.get_loc c = some (some (.vram, c - 0x6000000)) := by
  simp only [RawMemory.get_loc, SYSROM_END, EWRAM_START, EWRAM_END, IWRAM_START,
    IWRAM_END, IO_START, IO_END, PAL_START, PAL_END, VRAM_START, VRAM_END]
  rw [if_neg (by intro hx; omega), if_neg (by intro hx; omega), if_neg (by intro hx; omega), if_neg (by intro hx; omega),
    if_neg (by intro hx; omega), if_pos (by omega)]

theorem get_loc_oam (rm : RawMemory) (c : Nat) (h1 : 0x7000000 ≤ c)
    (h2 : c ≤ 0x70003FF) :
    rm.get_loc c = some (some (.oam, c - 0x7000000)) := by
  simp only [RawMemory.get_loc, SYSROM_END, EWRAM_START, EWRAM_END, IWRAM_START,
    IWRAM_END, IO_START, IO_END, PAL_START, PAL_END, VRAM_START, VRAM_END,
    OAM_START, OAM_END]
  rw [if_neg (by intro hx; omega), if_neg (by intro hx; omega), if_neg (by intro hx; omega), if_neg (by intro hx; omega),
    if_neg (by intro hx; omega), if_neg (by intro hx; omega), if_pos (by omega)]

/-- Reading a palette-range byte never aborts. -/
theorem get_byte_pal_some (rm : RawMemory) (c : Nat) (h1 : 0x5000000 ≤ c)
    (h2 : c ≤ 0x50003FF) : rm.get_byte c = some (rm.pal (c - 0x5000000)) := by
  rw [RawMemory.get_byte, get_loc_pal rm c h1 h2]
  show some (if RawMemory.segLen rm .pal ≤ c - 0x5000000 then 0
    else RawMemory.segRead rm .pal (c - 0x5000000)) = some _
  rw [if_neg (by simp only [RawMemory.segLen]; omega)]
  rfl

/-- Updating the parsed palette view never aborts and leaves raw bytes
untouched. -/
theorem update_pal_byte_some (m : Memory) (c v : Nat) (h1 : 0x5000000 ≤ c)
    (h2 : c ≤ 0x50003FF) :
    ∃ m2, m.update_pal_byte c v = some m2 ∧ m2.raw = m.raw ∧ m2.int = m.int := by
  have e1 : c - c % 2 ≤ 0x50003FE := by omega
  have e0 : 0x5000000 ≤ c - c % 2 := by omega
  have hb0 := get_byte_pal_some m.raw (c - c % 2) e0 (by omega)
  have hb1 := get_byte_pal_some m.raw (c - c % 2 + 1) (by omega) (by omega)
  rw [Memory.update_pal_byte, RawMemory.get_halfword]
  rw [hb0]
  simp only [Option.pure_def, Option.bind_eq_bind, Option.some_bind]
  rw [hb1]
  simp only [Option.some_bind]
  by_cases hc : c ≤ 0x50001FF
  · rw [if_pos hc]
    exact ⟨_, rfl, rfl, rfl⟩
  · rw [if_neg hc]
    exact ⟨_, rfl, rfl, rfl⟩

theorem set_byte_raw_ewram (rm : RawMemory) (c v : Nat) (h1 : 0x2000000 ≤ c)
    (h2 : c ≤ 0x203FFFF) :
    rm.set_byte c v = some { rm with ewram := updFn rm.ewram (c - 0x2000000) v } := by
  rw [RawMemory.set_byte, get_loc_mut_ewram rm c h1 h2]
  rfl

theorem set_byte_raw_iwram (rm : RawMemory) (c v : Nat) (h1 : 0x3000000 ≤ c)
    (h2 : c ≤ 0x3007FFF) :
    rm.set_byte c v = some { rm with iwram := updFn rm.iwram (c - 0x3000000) v } := by
  rw [RawMemory.set_byte, get_loc_mut_iwram rm c h1 h2]
  rfl

theorem set_byte_raw_pal (rm : RawMemory) (c v : Nat) (h1 : 0x5000000 ≤ c)
    (h2 : c ≤ 0x50003FF) :
    rm.set_byte c v = some { rm with pal := updFn rm.pal (c - 0x5000000) v } := by
  rw [RawMemory.set_byte, get_loc_mut_pal rm c h1 h2]
  rfl

theorem set_byte_raw_vram (rm : RawMemory) (c v : Nat) (h1 : 0x6000000 ≤ c)
    (h2 : c ≤ 0x6017FFF) :
    rm.set_byte c v = some { rm with vram := updFn rm.vram (c - 0x6000000) v } := by
  rw [RawMemory.set_byte, get_loc_mut_vram rm c h1 h2]
  rfl

theorem set_byte_raw_oam (rm : RawMemory) (c v : Nat) (h1 : 0x7000000 ≤ c)
    (h2 : c ≤ 0x70003FF) :
    rm.set_byte c v = some { rm with oam := updFn rm.oam (c - 0x7000000) v } := by
  rw [RawMemory.set_byte, get_loc_mut_oam rm c h1 h2]
  rfl

theorem get_byte_ewram (rm : RawMemory) (c : Nat) (h1 : 0x2000000 ≤ c)
    (h2 : c ≤ 0x203FFFF) : rm.get_byte c = some (rm.ewram (c - 0x2000000)) := by
  rw [RawMemory.get_byte, get_loc_ewram rm c h1 h2, Option.map_some']
  show some (if RawMemory.segLen rm .ewram ≤ c - 0x2000000 then 0
    else RawMemory.segRead rm .ewram (c - 0x2000000)) = some _
  rw [if_neg (by simp only [RawMemory.segLen]; omega)]
  rfl

theorem get_byte_iwram (rm : RawMemory) (c : Nat) (h1 : 0x3000000 ≤ c)
    (h2 : c ≤ 0x3007FFF) : rm.get_byte c = some (rm.iwram (c - 0x3000000)) := by
  rw [RawMemory.get_byte, get_loc_iwram rm c h1 h2, Option.map_some']
  show some (if RawMemory.segLen rm .iwram ≤ c - 0x3000000 then 0
    else RawMemory.segRead rm .iwram (c - 0x3000000)) = some _
  rw [if_neg (by simp only [RawMemory.segLen]; omega)]
  rfl

theorem get_byte_vram (rm : RawMemory) (c : Nat) (h1 : 0x6000000 ≤ c)
    (h2 : c ≤ 0x6017FFF) : rm.get_byte c = some (rm.vram (c - 0x6000000)) := by
  rw [RawMemory.get_byte, get_loc_vram rm c h1 h2, Option.map_some']
  show some (if RawMemory.segLen rm .vram ≤ c - 0x6000000 then 0
    else RawMemory.segRead rm .vram (c - 0x6000000)) = some _
  rw [if_neg (by simp only [RawMemory.segLen]; omega)]
  rfl

theorem get_byte_oam (rm : RawMemory) (c : Nat) (h1 : 0x7000000 ≤ c)
    (h2 : c ≤ 0x70003FF) : rm.get_byte c = some (rm.oam (c - 0x7000000)) := by
  rw [RawMemory.get_byte, get_loc_oam rm c h1 h2, Option.map_some']
  show some (if RawMemory.segLen rm .oam ≤ c - 0x7000000 then 0
    else RawMemory.segRead rm .oam (c - 0x7000000)) = some _
  rw [if_neg (by simp only [RawMemory.segLen]; omega)]
  rfl

/-- C8: RAM mirror round-trip.  For every address a of a mirrored RAM range
(EWRAM, IWRAM, palette, VRAM, OAM), writing a byte v and reading a back
returns v, and reading any alias a' with the same canonical address also
returns v. -/
theorem C8_mirror_roundtrip (m : Memory) (a a' v : Nat) (ha : in_ram_mirror_range a)
    (hmir : canonicalize_addr a' = canonicalize_addr a) (hv : v < 256) :
    ∃ m2, m.set_byte a v = some m2 ∧
      m2.get_byte a = some v ∧ m2.get_byte a' = some v := by
  have hread : ∀ m2 : Memory, m2.raw.get_byte (canonicalize_addr a) = some v →
      m2.get_byte a = some v ∧ m2.get_byte a' = some v := by
    intro m2 h
    exact ⟨h, by rw [Memory.get_byte, hmir]; exact h⟩
  rcases canon_seg_ranges a ha with ⟨h1, h2⟩ | ⟨h1, h2⟩ | ⟨h1, h2⟩ | ⟨h1, h2⟩ | ⟨h1, h2⟩
  · -- EWRAM
    have hset : m.set_byte a v = some { m with raw :=
        { m.raw with ewram := updFn m.raw.ewram (canonicalize_addr a - 0x2000000) v } } := by
      rw [Memory.set_byte, set_byte_raw_ewram m.raw _ v h1 h2]
      simp only [Option.bind_eq_bind, Option.some_bind]
      rw [if_neg (by simp only [GRAPHICS_START, GRAPHICS_END]; omega),
        if_neg (by simp only [DMA_START, DMA_END]; omega),
        if_neg (by simp only [INT_START, INT_END]; omega),
        if_neg (by simp only [OAM_START, OAM_END]; omega),
        if_neg (by simp only [PAL_START, PAL_END]; omega)]
      rfl
    refine ⟨_, hset, hread _ ?_⟩
    rw [get_byte_ewram _ _ h1 h2]
    simp [updFn]
  · -- IWRAM
    have hset : m.set_byte a v = some { m with raw :=
        { m.raw with iwram := updFn m.raw.iwram (canonicalize_addr a - 0x3000000) v } } := by
      rw [Memory.set_byte, set_byte_raw_iwram m.raw _ v h1 h2]
      simp only [Option.bind_eq_bind, Option.some_bind]
      rw [if_neg (by simp only [GRAPHICS_START, GRAPHICS_END]; omega),
        if_neg (by simp only [DMA_START, DMA_END]; omega),
        if_neg (by simp only [INT_START, INT_END]; omega),
        if_neg (by simp only [OAM_START, OAM_END]; omega),
        if_neg (by simp only [PAL_START, PAL_END]; omega)]
      rfl
    refine ⟨_, hset, hread _ ?_⟩
    rw [get_byte_iwram _ _ h1 h2]
    simp [updFn]
  · -- palette: the write also refreshes the parsed palette view, which
    -- does not touch raw memory
    obtain ⟨m2, hup, hraw, _⟩ := update_pal_byte_some
      { m with raw := { m.raw with pal := updFn m.raw.pal (canonicalize_addr a - 0x5000000) v } }
      (canonicalize_addr a) v h1 h2
    have hset : m.set_byte a v = some m2 := by
      rw [Memory.set_byte, set_byte_raw_pal m.raw _ v h1 h2]
      simp only [Option.bind_eq_bind, Option.some_bind]
      rw [if_neg (by simp only [GRAPHICS_START, GRAPHICS_END]; omega),
        if_neg (by simp only [DMA_START, DMA_END]; omega),
        if_neg (by simp only [INT_START, INT_END]; omega),
        if_neg (by simp only [OAM_START, OAM_END]; omega),
        if_pos (by simp only [PAL_START, PAL_END]; omega)]
      exact hup
    refine ⟨m2, hset, hread m2 ?_⟩
    rw [hraw, get_byte_pal_some _ _ h1 h2]
    simp [updFn]
  · -- VRAM
    have hset : m.set_byte a v = some { m with raw :=
        { m.raw with vram := updFn m.raw.vram (canonicalize_addr a - 0x6000000) v } } := by
      rw [Memory.set_byte, set_byte_raw_vram m.raw _ v h1 h2]
      simp only [Option.bind_eq_bind, Option.some_bind]
      rw [if_neg (by simp only [GRAPHICS_START, GRAPHICS_END]; omega),
        if_neg (by simp only [DMA_START, DMA_END]; omega),
        if_neg (by simp only [INT_START, INT_END]; omega),
        if_neg (by simp only [OAM_START, OAM_END]; omega),
        if_neg (by simp only [PAL_START, PAL_END]; omega)]
      rfl
    refine ⟨_, hset, hread _ ?_⟩
    rw [get_byte_vram _ _ h1 h2]
    simp [updFn]
  · -- OAM: the write also refreshes the (unmodelled) sprite view, embedded
    -- as the identity
    have hset : m.set_byte a v = some { m with raw :=
        { m.raw with oam := updFn m.raw.oam (canonicalize_addr a - 0x7000000) v } } := by
      rw [Memory.set_byte, set_byte_raw_oam m.raw _ v h1 h2]
      simp only [Option.bind_eq_bind, Option.some_bind]
      rw [if_neg (by simp only [GRAPHICS_START, GRAPHICS_END]; omega),
        if_neg (by simp only [DMA_START, DMA_END]; omega),
        if_neg (by simp only [INT_START, INT_END]; omega),
        if_pos (by simp only [OAM_START, OAM_END]; omega)]
      rfl
    refine ⟨_, hset, hread _ ?_⟩
    rw [get_byte_oam _ _ h1 h2]
    simp [updFn]

/-- C8 witness: the round-trip theorem applied at concrete inputs — IWRAM
mirror address 0x3038002 aliases 0x3000002 (the test vector of
src/mem/mod.rs), value 0x7B. -/
theorem C8_witness :
    in_ram_mirror_range 0x3038002 ∧
    canonicalize_addr 0x3000002 = canonicalize_addr 0x3038002 ∧
    ∃ m2, Memory.new.set_byte 0x3038002 0x7B = some m2 ∧
      m2.get_byte 0x3038002 = some 0x7B ∧ m2.get_byte 0x3000002 = some 0x7B := by
  refine ⟨?_, ?_, C8_mirror_roundtrip Memory.new 0x3038002 0x3000002 0x7B ?_ ?_ (by norm_num)⟩
  · unfold in_ram_mirror_range
    norm_num
  · rfl
  · unfold in_ram_mirror_range
    norm_num
  · rfl

/-! Palette decode coherence, for the window-coherence claim: the parsed
palette viewed as 512 flattened slots (0..255 background, 256..511 sprite)
against the raw palette bytes. -/

/-- Flattened parsed palette slot i (0..255 background, 256..511 sprite). -/
def pal_slot (m : Memory) (i : Nat) : Nat :=
  if i < 256 then m.palette.bg i else m.palette.sprite (i - 256)

/-- The raw 16-bit palette entry of flattened slot i (little endian). -/
def pal_raw_halfword (m : Memory) (i : Nat) : Nat :=
  m.raw.pal (2 * i) + 256 * m.raw.pal (2 * i + 1)

/-- Full characterization of update_pal_byte: it re-expands exactly the
parsed slot the written address belongs to, from the raw halfword holding
that address, and changes nothing else (in particular raw memory is
untouched). -/
theorem update_pal_byte_eq (m : Memory) (c v : Nat) (h1 : 0x5000000 ≤ c)
    (h2 : c ≤ 0x50003FF) :
    ∃ m2, m.update_pal_byte c v = some m2 ∧
      m2.raw = m.raw ∧ m2.dma = m.dma ∧ m2.int = m.int ∧
      m2.rom_n_cycle = m.rom_n_cycle ∧ m2.rom_s_cycle_fast = m.rom_s_cycle_fast ∧
      ∀ i, i < 512 → pal_slot m2 i =
        (if i = (c - 0x5000000) / 2
         then high_to_true (pal_raw_halfword m ((c - 0x5000000) / 2))
         else pal_slot m i) := by
  have e0 : 0x5000000 ≤ c - c % 2 := by omega
  have hb0 := get_byte_pal_some m.raw (c - c % 2) e0 (by omega)
  have hb1 := get_byte_pal_some m.raw (c - c % 2 + 1) (by omega) (by omega)
  have hidx0 : c - c % 2 - 0x5000000 = 2 * ((c - 0x5000000) / 2) := by omega
  have hidx1 : c - c % 2 + 1 - 0x5000000 = 2 * ((c - 0x5000000) / 2) + 1 := by omega
  have hhw : m.raw.pal (c - c % 2 - 0x5000000) +
      m.raw.pal (c - c % 2 + 1 - 0x5000000) * 256
      = pal_raw_halfword m ((c - 0x5000000) / 2) := by
    rw [hidx0, hidx1, pal_raw_halfword]
    ring
  rw [Memory.update_pal_byte, RawMemory.get_halfword, hb0]
  simp only [Option.pure_def, Option.bind_eq_bind, Option.some_bind]
  rw [hb1]
  simp only [Option.some_bind, hhw]
  by_cases hc : c ≤ 0x50001FF
  · rw [if_pos hc]
    refine ⟨_, rfl, rfl, rfl, rfl, rfl, rfl, ?_⟩
    intro i hi
    have hq : (c - 0x5000000) / 2 < 256 := by omega
    have hidx : (c - PAL_START) / 2 % 256 = (c - 0x5000000) / 2 := by
      simp only [PAL_START]
      omega
    simp only [pal_slot, hidx]
    by_cases hie : i = (c - 0x5000000) / 2
    · rw [if_pos (by omega : i < 256), if_pos hie, if_pos hie]
    · rw [if_neg hie]
      by_cases hlt : i < 256
      · rw [if_pos hlt, if_neg hie]
      · rw [if_neg hlt, if_neg hie]
  · rw [if_neg hc]
    refine ⟨_, rfl, rfl, rfl, rfl, rfl, rfl, ?_⟩
    intro i hi
    have hq : 256 ≤ (c - 0x5000000) / 2 ∧ (c - 0x5000000) / 2 < 512 := by omega
    have hidx : (c - PAL_START) / 2 % 256 = (c - 0x5000000) / 2 - 256 := by
      simp only [PAL_START]
      omega
    simp only [pal_slot, hidx]
    by_cases hie : i = (c - 0x5000000) / 2
    · rw [if_neg (by omega : ¬i < 256), if_pos (by omega : i - 256 = (c - 0x5000000) / 2 - 256),
        if_pos hie]
    · rw [if_neg hie]
      by_cases hlt : i < 256
      · rw [if_pos hlt, if_pos hlt]
      · rw [if_neg hlt, if_neg hlt, if_neg (by omega : ¬i - 256 = (c - 0x5000000) / 2 - 256)]

/-- C2 (amended): per-write decode coherence between raw I/O bytes and the
parsed views, window by window.  It holds for the IME/IE/WSCNT registers of
the interrupt window (the governed parsed fields decode the raw byte just
stored, which is the written value) and for the palette window: a byte,
halfword or word store wholly inside the window re-expands exactly the
parsed slots its bytes belong to from the raw entries just written, and
leaves every other parsed slot and raw entry untouched.  It fails on the IF
bytes and on the DMA count, as the counterexample shows. -/
theorem C2_window_coherence (m : Memory) (v : Nat) (hv : v < 256) :
    (∃ m2, m.set_byte IME v = some m2 ∧
      m2.raw.io (IME - IO_START) = v ∧
      m2.int.master_enabled = get_bit (m2.raw.io (IME - IO_START)) 0) ∧
    (∃ m2, m.set_byte IE_LO v = some m2 ∧
      m2.raw.io (IE_LO - IO_START) = v ∧
      m2.int.enabled.vblank = get_bit (m2.raw.io (IE_LO - IO_START)) 0 ∧
      m2.int.enabled.hblank = get_bit (m2.raw.io (IE_LO - IO_START)) 1 ∧
      m2.int.enabled.vcount = get_bit (m2.raw.io (IE_LO - IO_START)) 2 ∧
      m2.int.enabled.timer 0 = get_bit (m2.raw.io (IE_LO - IO_START)) 3 ∧
      m2.int.enabled.timer 1 = get_bit (m2.raw.io (IE_LO - IO_START)) 4 ∧
      m2.int.enabled.timer 2 = get_bit (m2.raw.io (IE_LO - IO_START)) 5 ∧
      m2.int.enabled.timer 3 = get_bit (m2.raw.io (IE_LO - IO_START)) 6 ∧
      m2.int.enabled.serial = get_bit (m2.raw.io (IE_LO - IO_START)) 7) ∧
    (∃ m2, m.set_byte IE_HI v = some m2 ∧
      m2.raw.io (IE_HI - IO_START) = v ∧
      m2.int.enabled.dma 0 = get_bit (m2.raw.io (IE_HI - IO_START)) 0 ∧
      m2.int.enabled.dma 1 = get_bit (m2.raw.io (IE_HI - IO_START)) 1 ∧
      m2.int.enabled.dma 2 = get_bit (m2.raw.io (IE_HI - IO_START)) 2 ∧
      m2.int.enabled.dma 3 = get_bit (m2.raw.io (IE_HI - IO_START)) 3 ∧
      m2.int.enabled.keypad = get_bit (m2.raw.io (IE_HI - IO_START)) 4 ∧
      m2.int.enabled.gamepak = get_bit (m2.raw.io (IE_HI - IO_START)) 5) ∧
    (∃ m2, m.set_byte WSCNT_LO v = some m2 ∧
      m2.raw.io (WSCNT_LO - IO_START) = v ∧
      m2.rom_n_cycle = (match (m2.raw.io (WSCNT_LO - IO_START) >>> 2) % 4 with
        | 0 => 4 | 1 => 3 | 2 => 2 | _ => 8) ∧
      m2.rom_s_cycle_fast = decide ((m2.raw.io (WSCNT_LO - IO_START) >>> 4) % 2 = 1)) ∧
    (∀ a w, 0x5000000 ≤ a → a ≤ 0x5FFFFFF →
      ∃ m2, m.set_byte a w = some m2 ∧
        (∀ i, i < 512 → i = (a % 0x400) / 2 →
          pal_slot m2 i = high_to_true (pal_raw_halfword m2 i)) ∧
        (∀ i, i < 512 → ¬i = (a % 0x400) / 2 →
          pal_slot m2 i = pal_slot m i ∧
          pal_raw_halfword m2 i = pal_raw_halfword m i)) ∧
    (∀ a w, 0x5000000 ≤ a → a ≤ 0x5FFFFFF → a % 0x400 < 0x3FF →
      ∃ m2, m.set_halfword a w = some m2 ∧
        (∀ i, i < 512 → (i = (a % 0x400) / 2 ∨ i = (a % 0x400 + 1) / 2) →
          pal_slot m2 i = high_to_true (pal_raw_halfword m2 i)) ∧
        (∀ i, i < 512 → ¬(i = (a % 0x400) / 2 ∨ i = (a % 0x400 + 1) / 2) →
          pal_slot m2 i = pal_slot m i ∧
          pal_raw_halfword m2 i = pal_raw_halfword m i)) ∧
    (∀ a w, 0x5000000 ≤ a → a ≤ 0x5FFFFFF → a % 0x400 < 0x3FD →
      ∃ m2, m.set_word a w = some m2 ∧
        (∀ i, i < 512 → (i = (a % 0x400) / 2 ∨ i = (a % 0x400 + 1) / 2 ∨
            i = (a % 0x400 + 2) / 2 ∨ i = (a % 0x400 + 3) / 2) →
          pal_slot m2 i = high_to_true (pal_raw_halfword m2 i)) ∧
        (∀ i, i < 512 → ¬(i = (a % 0x400) / 2 ∨ i = (a % 0x400 + 1) / 2 ∨
            i = (a % 0x400 + 2) / 2 ∨ i = (a % 0x400 + 3) / 2) →
          pal_slot m2 i = pal_slot m i ∧
          pal_raw_halfword m2 i = pal_raw_halfword m i)) := by
  have hpalB : ∀ a w, 0x5000000 ≤ a → a ≤ 0x5FFFFFF →
      ∃ m2, m.set_byte a w = some m2 ∧
        (∀ i, i < 512 → i = (a % 0x400) / 2 →
          pal_slot m2 i = high_to_true (pal_raw_halfword m2 i)) ∧
        (∀ i, i < 512 → ¬i = (a % 0x400) / 2 →
          pal_slot m2 i = pal_slot m i ∧
          pal_raw_halfword m2 i = pal_raw_halfword m i) := by
    intro a w ha1 ha2
    have hmod : a % 0x400 < 0x400 := Nat.mod_lt _ (by norm_num)
    have hcan := canon_pal a ha1 ha2
    have hc1 : (0x5000000 : Nat) ≤ 0x5000000 + a % 0x400 := by omega
    have hc2 : 0x5000000 + a % 0x400 ≤ 0x50003FF := by omega
    have hraww := set_byte_raw_pal m.raw (0x5000000 + a % 0x400) w hc1 hc2
    rw [Nat.add_sub_cancel_left] at hraww
    obtain ⟨m2, hu, hraw, _, _, _, _, hchar⟩ :=
      update_pal_byte_eq
        { m with raw := { m.raw with pal := updFn m.raw.pal (a % 0x400) w } }
        (0x5000000 + a % 0x400) w hc1 hc2
    rw [Nat.add_sub_cancel_left] at hchar
    have hset : m.set_byte a w = some m2 := by
      rw [Memory.set_byte, hcan, hraww]
      simp only [Option.bind_eq_bind, Option.some_bind]
      rw [if_neg (by simp only [GRAPHICS_START, GRAPHICS_END]; omega),
        if_neg (by simp only [DMA_START, DMA_END]; omega),
        if_neg (by simp only [INT_START, INT_END]; omega),
        if_neg (by simp only [OAM_START, OAM_END]; omega),
        if_pos (by simp only [PAL_START, PAL_END]; omega)]
      exact hu
    have hrh : ∀ j, pal_raw_halfword m2 j = pal_raw_halfword
        { m with raw := { m.raw with pal := updFn m.raw.pal (a % 0x400) w } } j := by
      intro j
      simp only [pal_raw_halfword, hraw]
    refine ⟨m2, hset, ?_, ?_⟩
    · intro i hi hie
      rw [hchar i hi, if_pos hie, hrh i, hie]
    · intro i hi hie
      constructor
      · rw [hchar i hi, if_neg hie]
        rfl
      · rw [hrh i]
        simp only [pal_raw_halfword, updFn]
        rw [if_neg (by omega : ¬2 * i = a % 0x400),
          if_neg (by omega : ¬2 * i + 1 = a % 0x400)]
  have hpalH : ∀ a w, 0x5000000 ≤ a → a ≤ 0x5FFFFFF → a % 0x400 < 0x3FF →
      ∃ m2, m.set_halfword a w = some m2 ∧
        (∀ i, i < 512 → (i = (a % 0x400) / 2 ∨ i = (a % 0x400 + 1) / 2) →
          pal_slot m2 i = high_to_true (pal_raw_halfword m2 i)) ∧
        (∀ i, i < 512 → ¬(i = (a % 0x400) / 2 ∨ i = (a % 0x400 + 1) / 2) →
          pal_slot m2 i = pal_slot m i ∧
          pal_raw_halfword m2 i = pal_raw_halfword m i) := by
    intro a w ha1 ha2 hfit
    have hmod : a % 0x400 < 0x400 := Nat.mod_lt _ (by norm_num)
    have hcan := canon_pal a ha1 ha2
    have hc1 : (0x5000000 : Nat) ≤ 0x5000000 + a % 0x400 := by omega
    have hc2 : 0x5000000 + a % 0x400 ≤ 0x50003FF := by omega
    have hr0 := set_byte_raw_pal m.raw (0x5000000 + a % 0x400) (get_byte_at w 0) hc1 hc2
    rw [Nat.add_sub_cancel_left] at hr0
    have hr1 : RawMemory.set_byte
        { m.raw with pal := updFn m.raw.pal (a % 0x400) (get_byte_at w 0) }
        (0x5000000 + a % 0x400 + 1) (get_byte_at w 8)
        = some { m.raw with pal := (updFn (updFn m.raw.pal (a % 0x400) (get_byte_at w 0))
            (a % 0x400 + 1) (get_byte_at w 8)) } := by
      have h := set_byte_raw_pal
        { m.raw with pal := updFn m.raw.pal (a % 0x400) (get_byte_at w 0) }
        (0x5000000 + a % 0x400 + 1) (get_byte_at w 8) (by omega) (by omega)
      rw [show (0x5000000 : Nat) + a % 0x400 + 1 - 0x5000000 = a % 0x400 + 1 from by omega] at h
      exact h
    obtain ⟨mA, huA, hrawA, _, _, _, _, hcharA⟩ :=
      update_pal_byte_eq
        { m with raw := { m.raw with pal :=
            (updFn (updFn m.raw.pal (a % 0x400) (get_byte_at w 0))
              (a % 0x400 + 1) (get_byte_at w 8)) } }
        (0x5000000 + a % 0x400) (w % 256) hc1 hc2
    rw [Nat.add_sub_cancel_left] at hcharA
    obtain ⟨mB, huB, hrawB, _, _, _, _, hcharB⟩ :=
      update_pal_byte_eq mA (0x5000000 + a % 0x400 + 1) ((w >>> 8) % 256) (by omega) (by omega)
    rw [show (0x5000000 : Nat) + a % 0x400 + 1 - 0x5000000 = a % 0x400 + 1 from by omega] at hcharB
    have hset : m.set_halfword a w = some mB := by
      rw [Memory.set_halfword, hcan, RawMemory.set_halfword, hr0]
      simp only [Option.bind_eq_bind, Option.some_bind]
      rw [hr1]
      simp only [Option.some_bind]
      rw [if_neg (by simp only [GRAPHICS_START, GRAPHICS_END]; omega),
        if_neg (by simp only [DMA_START, DMA_END]; omega),
        if_neg (by simp only [INT_START, INT_END]; omega),
        if_neg (by simp only [OAM_START, OAM_END]; omega),
        if_pos (by simp only [PAL_START, PAL_END]; omega)]
      rw [Memory.update_pal_hw, huA]
      simp only [Option.bind_eq_bind, Option.some_bind]
      exact huB
    have hrhA : ∀ j, pal_raw_halfword mA j = pal_raw_halfword
        { m with raw := { m.raw with pal :=
            (updFn (updFn m.raw.pal (a % 0x400) (get_byte_at w 0))
              (a % 0x400 + 1) (get_byte_at w 8)) } } j := by
      intro j
      simp only [pal_raw_halfword, hrawA]
    have hrhB : ∀ j, pal_raw_halfword mB j = pal_raw_halfword
        { m with raw := { m.raw with pal :=
            (updFn (updFn m.raw.pal (a % 0x400) (get_byte_at w 0))
              (a % 0x400 + 1) (get_byte_at w 8)) } } j := by
      intro j
      simp only [pal_raw_halfword, hrawB, hrawA]
    refine ⟨mB, hset, ?_, ?_⟩
    · intro i hi hmem
      by_cases h1' : i = (a % 0x400 + 1) / 2
      · rw [hcharB i hi, if_pos h1', hrhA ((a % 0x400 + 1) / 2), hrhB i, h1']
      · have h0' : i = (a % 0x400) / 2 := by
          rcases hmem with h | h
          exacts [h, absurd h h1']
        rw [hcharB i hi, if_neg h1', hcharA i hi, if_pos h0', hrhB i, h0']
    · intro i hi hmem
      have h0' : ¬i = (a % 0x400) / 2 := fun h => hmem (Or.inl h)
      have h1' : ¬i = (a % 0x400 + 1) / 2 := fun h => hmem (Or.inr h)
      constructor
      · rw [hcharB i hi, if_neg h1', hcharA i hi, if_neg h0']
        rfl
      · rw [hrhB i]
        simp only [pal_raw_halfword, updFn]
        rw [if_neg (by omega : ¬2 * i = a % 0x400 + 1),
          if_neg (by omega : ¬2 * i = a % 0x400),
          if_neg (by omega : ¬2 * i + 1 = a % 0x400 + 1),
          if_neg (by omega : ¬2 * i + 1 = a % 0x400)]
  have hpalW : ∀ a w, 0x5000000 ≤ a → a ≤ 0x5FFFFFF → a % 0x400 < 0x3FD →
      ∃ m2, m.set_word a w = some m2 ∧
        (∀ i, i < 512 → (i = (a % 0x400) / 2 ∨ i = (a % 0x400 + 1) / 2 ∨
            i = (a % 0x400 + 2) / 2 ∨ i = (a % 0x400 + 3) / 2) →
          pal_slot m2 i = high_to_true (pal_raw_halfword m2 i)) ∧
        (∀ i, i < 512 → ¬(i = (a % 0x400) / 2 ∨ i = (a % 0x400 + 1) / 2 ∨
            i = (a % 0x400 + 2) / 2 ∨ i = (a % 0x400 + 3) / 2) →
          pal_slot m2 i = pal_slot m i ∧
          pal_raw_halfword m2 i = pal_raw_halfword m i) := by
    intro a w ha1 ha2 hfit
    have hmod : a % 0x400 < 0x400 := Nat.mod_lt _ (by norm_num)
    have hcan := canon_pal a ha1 ha2
    have hc1 : (0x5000000 : Nat) ≤ 0x5000000 + a % 0x400 := by omega
    have hc2 : 0x5000000 + a % 0x400 ≤ 0x50003FF := by omega
    have hr0 := set_byte_raw_pal m.raw (0x5000000 + a % 0x400) (get_byte_at w 0) hc1 hc2
    rw [Nat.add_sub_cancel_left] at hr0
    have hr1 : RawMemory.set_byte
        { m.raw with pal := updFn m.raw.pal (a % 0x400) (get_byte_at w 0) }
        (0x5000000 + a % 0x400 + 1) (get_byte_at w 8)
        = some { m.raw with pal := (updFn (updFn m.raw.pal (a % 0x400) (get_byte_at w 0))
            (a % 0x400 + 1) (get_byte_at w 8)) } := by
      have h := set_byte_raw_pal
        { m.raw with pal := updFn m.raw.pal (a % 0x400) (get_byte_at w 0) }
        (0x5000000 + a % 0x400 + 1) (get_byte_at w 8) (by omega) (by omega)
      rw [show (0x5000000 : Nat) + a % 0x400 + 1 - 0x5000000 = a % 0x400 + 1 from by omega] at h
      exact h
    have hr2 : RawMemory.set_byte
        { m.raw with pal := (updFn (updFn m.raw.pal (a % 0x400) (get_byte_at w 0))
            (a % 0x400 + 1) (get_byte_at w 8)) }
        (0x5000000 + a % 0x400 + 1 + 1) (get_byte_at w 16)
        = some { m.raw with pal :=
            (updFn (updFn (updFn m.raw.pal (a % 0x400) (get_byte_at w 0))
              (a % 0x400 + 1) (get_byte_at w 8)) (a % 0x400 + 2) (get_byte_at w 16)) } := by
      have h := set_byte_raw_pal
        { m.raw with pal := (updFn (updFn m.raw.pal (a % 0x400) (get_byte_at w 0))
            (a % 0x400 + 1) (get_byte_at w 8)) }
        (0x5000000 + a % 0x400 + 1 + 1) (get_byte_at w 16) (by omega) (by omega)
      rw [show (0x5000000 : Nat) + a % 0x400 + 1 + 1 - 0x5000000 = a % 0x400 + 2 from by omega] at h
      exact h
    have hr3 : RawMemory.set_byte
        { m.raw with pal :=
            (updFn (updFn (updFn m.raw.pal (a % 0x400) (get_byte_at w 0))
              (a % 0x400 + 1) (get_byte_at w 8)) (a % 0x400 + 2) (get_byte_at w 16)) }
        (0x5000000 + a % 0x400 + 1 + 1 + 1) (get_byte_at w 24)
        = some { m.raw with pal :=
            (updFn (updFn (updFn (updFn m.raw.pal (a % 0x400) (get_byte_at w 0))
              (a % 0x400 + 1) (get_byte_at w 8)) (a % 0x400 + 2) (get_byte_at w 16))
              (a % 0x400 + 3) (get_byte_at w 24)) } := by
      have h := set_byte_raw_pal
        { m.raw with pal :=
            (updFn (updFn (updFn m.raw.pal (a % 0x400) (get_byte_at w 0))
              (a % 0x400 + 1) (get_byte_at w 8)) (a % 0x400 + 2) (get_byte_at w 16)) }
        (0x5000000 + a % 0x400 + 1 + 1 + 1) (get_byte_at w 24) (by omega) (by omega)
      rw [show (0x5000000 : Nat) + a % 0x400 + 1 + 1 + 1 - 0x5000000 = a % 0x400 + 3 from by omega] at h
      exact h
    obtain ⟨mA, huA, hrawA, _, _, _, _, hcharA⟩ :=
      update_pal_byte_eq
        { m with raw := { m.raw with pal :=
            (updFn (updFn (updFn (updFn m.raw.pal (a % 0x400) (get_byte_at w 0))
              (a % 0x400 + 1) (get_byte_at w 8)) (a % 0x400 + 2) (get_byte_at w 16))
              (a % 0x400 + 3) (get_byte_at w 24)) } }
        (0x5000000 + a % 0x400) (w % 256) hc1 hc2
    rw [Nat.add_sub_cancel_left] at hcharA
    obtain ⟨mB, huB, hrawB, _, _, _, _, hcharB⟩ :=
      update_pal_byte_eq mA (0x5000000 + a % 0x400 + 1) ((w >>> 8) % 256) (by omega) (by omega)
    rw [show (0x5000000 : Nat) + a % 0x400 + 1 - 0x5000000 = a % 0x400 + 1 from by omega] at hcharB
    obtain ⟨mC, huC, hrawC, _, _, _, _, hcharC⟩ :=
      update_pal_byte_eq mB (0x5000000 + a % 0x400 + 2) ((w >>> 16) % 256) (by omega) (by omega)
    rw [show (0x5000000 : Nat) + a % 0x400 + 2 - 0x5000000 = a % 0x400 + 2 from by omega] at hcharC
    obtain ⟨mD, huD, hrawD, _, _, _, _, hcharD⟩ :=
      update_pal_byte_eq mC (0x5000000 + a % 0x400 + 2 + 1) ((w >>> 16 >>> 8) % 256)
        (by omega) (by omega)
    rw [show (0x5000000 : Nat) + a % 0x400 + 2 + 1 - 0x5000000 = a % 0x400 + 3 from by omega] at hcharD
    have hset : m.set_word a w = some mD := by
      rw [Memory.set_word, hcan, RawMemory.set_word, hr0]
      simp only [Option.bind_eq_bind, Option.some_bind]
      rw [hr1]
      simp only [Option.some_bind]
      rw [hr2]
      simp only [Option.some_bind]
      rw [hr3]
      simp only [Option.some_bind]
      rw [if_neg (by simp only [GRAPHICS_START, GRAPHICS_END]; omega),
        if_neg (by simp only [DMA_START, DMA_END]; omega),
        if_neg (by simp only [INT_START, INT_END]; omega),
        if_neg (by simp only [OAM_START, OAM_END]; omega),
        if_pos (by simp only [PAL_START, PAL_END]; omega)]
      simp only [Memory.update_pal_word, Memory.update_pal_hw]
      rw [huA]
      simp only [Option.bind_eq_bind, Option.some_bind]
      rw [huB]
      simp only [Option.some_bind]
      rw [huC]
      simp only [Option.some_bind]
      exact huD
    have hrhA : ∀ j, pal_raw_halfword mA j = pal_raw_halfword
        { m with raw := { m.raw with pal :=
            (updFn (updFn (updFn (updFn m.raw.pal (a % 0x400) (get_byte_at w 0))
              (a % 0x400 + 1) (get_byte_at w 8)) (a % 0x400 + 2) (get_byte_at w 16))
              (a % 0x400 + 3) (get_byte_at w 24)) } } j := by
      intro j
      simp only [pal_raw_halfword, hrawA]
    have hrhB : ∀ j, pal_raw_halfword mB j = pal_raw_halfword mA j := by
      intro j
      simp only [pal_raw_halfword, hrawB]
    have hrhC : ∀ j, pal_raw_halfword mC j = pal_raw_halfword mA j := by
      intro j
      simp only [pal_raw_halfword, hrawC, hrawB]
    have hrhD : ∀ j, pal_raw_halfword mD j = pal_raw_halfword mA j := by
      intro j
      simp only [pal_raw_halfword, hrawD, hrawC, hrawB]
    refine ⟨mD, hset, ?_, ?_⟩
    · intro i hi hmem
      by_cases h3' : i = (a % 0x400 + 3) / 2
      · rw [hcharD i hi, if_pos h3', hrhC ((a % 0x400 + 3) / 2), hrhD i, h3']
      · rw [hcharD i hi, if_neg h3']
        by_cases h2' : i = (a % 0x400 + 2) / 2
        · rw [hcharC i hi, if_pos h2', hrhB ((a % 0x400 + 2) / 2), hrhD i, h2']
        · rw [hcharC i hi, if_neg h2']
          by_cases h1' : i = (a % 0x400 + 1) / 2
          · rw [hcharB i hi, if_pos h1', hrhD i, h1']
          · have h0' : i = (a % 0x400) / 2 := by
              rcases hmem with h | h | h | h
              exacts [h, absurd h h1', absurd h h2', absurd h h3']
            rw [hcharB i hi, if_neg h1', hcharA i hi, if_pos h0', hrhD i, hrhA i, h0']
    · intro i hi hmem
      have h0' : ¬i = (a % 0x400) / 2 := fun h => hmem (Or.inl h)
      have h1' : ¬i = (a % 0x400 + 1) / 2 := fun h => hmem (Or.inr (Or.inl h))
      have h2' : ¬i = (a % 0x400 + 2) / 2 := fun h => hmem (Or.inr (Or.inr (Or.inl h)))
      have h3' : ¬i = (a % 0x400 + 3) / 2 := fun h => hmem (Or.inr (Or.inr (Or.inr h)))
      constructor
      · rw [hcharD i hi, if_neg h3', hcharC i hi, if_neg h2', hcharB i hi, if_neg h1',
          hcharA i hi, if_neg h0']
        rfl
      · rw [hrhD i, hrhA i]
        simp only [pal_raw_halfword, updFn]
        rw [if_neg (by omega : ¬2 * i = a % 0x400 + 3),
          if_neg (by omega : ¬2 * i = a % 0x400 + 2),
          if_neg (by omega : ¬2 * i = a % 0x400 + 1),
          if_neg (by omega : ¬2 * i = a % 0x400),
          if_neg (by omega : ¬2 * i + 1 = a % 0x400 + 3),
          if_neg (by omega : ¬2 * i + 1 = a % 0x400 + 2),
          if_neg (by omega : ¬2 * i + 1 = a % 0x400 + 1),
          if_neg (by omega : ¬2 * i + 1 = a % 0x400)]
  refine ⟨⟨_, rfl, rfl, ?_⟩, ⟨_, rfl, rfl, ?_, ?_, ?_, ?_, ?_, ?_, ?_, ?_⟩,
    ⟨_, rfl, rfl, ?_, ?_, ?_, ?_, ?_, ?_⟩, ⟨_, rfl, rfl, ?_, ?_⟩, hpalB, hpalH, hpalW⟩
  all_goals rfl

/-- C2 witness: the amended theorem applied at the fresh core — a byte write
of 1 to IME is decoded coherently, and a palette byte write to 0x5000000
re-expands exactly slot 0 and touches nothing else. -/
theorem C2_witness :
    (1 : Nat) < 256 ∧
    (∃ m2, Memory.new.set_byte IME 1 = some m2 ∧
      m2.raw.io (IME - IO_START) = 1 ∧
      m2.int.master_enabled = get_bit (m2.raw.io (IME - IO_START)) 0) ∧
    (∃ m2, Memory.new.set_byte 0x5000000 0x1F = some m2 ∧
      (∀ i, i < 512 → i = (0x5000000 % 0x400) / 2 →
        pal_slot m2 i = high_to_true (pal_raw_halfword m2 i)) ∧
      (∀ i, i < 512 → ¬i = (0x5000000 % 0x400) / 2 →
        pal_slot m2 i = pal_slot Memory.new i ∧
        pal_raw_halfword m2 i = pal_raw_halfword Memory.new i)) := by
  refine ⟨by norm_num, (C2_window_coherence Memory.new 1 (by norm_num)).1,
    (C2_window_coherence Memory.new 1 (by norm_num)).2.2.2.2.1 0x5000000 0x1F
      (by norm_num) (by norm_num)⟩

/-! Helper lemmas for the shifter claim. -/

/-- The 2-bit shift type field in terms of the individual bits. -/
theorem ty_of_bits (s : Nat) : (s >>> 1) % 4 = 2 * ((s >>> 2) % 2) + (s >>> 1) % 2 := by
  rw [Nat.shiftRight_eq_div_pow, Nat.shiftRight_eq_div_pow]
  norm_num
  omega

/-- Unfolding of asr32 when bit 31 is set. -/
theorem asr32_eq_pos (v k : Nat) (hb : get_bit v 31 = true) :
    asr32 v k = v >>> k + (2 ^ 32 - 2 ^ (32 - k)) := by
  unfold asr32
  rw [if_pos hb]

/-- Unfolding of asr32 when bit 31 is clear. -/
theorem asr32_eq_neg (v k : Nat) (hb : get_bit v 31 = false) :
    asr32 v k = v >>> k := by
  unfold asr32
  rw [if_neg (by simp [hb])]
  exact Nat.add_zero _

/-- Bit 31 reads true exactly on the upper half of the 32-bit range. -/
theorem bit31_true_of_range (x : Nat) (h1 : 2 ^ 31 ≤ x) (h2 : x < 2 ^ 32) :
    get_bit x 31 = true := by
  unfold get_bit
  simp only [decide_eq_true_eq]
  rw [Nat.shiftRight_eq_div_pow]
  have e1 : (2 : Nat) ^ 31 = 2147483648 := by norm_num
  have e2 : (2 : Nat) ^ 32 = 4294967296 := by norm_num
  omega

/-- Bit 31 reads false below 2^31. -/
theorem bit31_false_of_lt (x : Nat) (h : x < 2 ^ 31) : get_bit x 31 = false := by
  unfold get_bit
  simp only [decide_eq_false_iff_not]
  rw [Nat.shiftRight_eq_div_pow]
  have e1 : (2 : Nat) ^ 31 = 2147483648 := by norm_num
  omega

/-- A 32-bit value with bit 31 clear is below 2^31. -/
theorem lt_pow31_of_bit31_clear (v : Nat) (hv : v < 2 ^ 32)
    (hb : get_bit v 31 = false) : v < 2 ^ 31 := by
  unfold get_bit at hb
  simp only [decide_eq_false_iff_not] at hb
  rw [Nat.shiftRight_eq_div_pow] at hb
  have e1 : (2 : Nat) ^ 31 = 2147483648 := by norm_num
  have e2 : (2 : Nat) ^ 32 = 4294967296 := by norm_num
  omega

/-- The arithmetic-shift helper keeps the low bit of the plain shift: the
sign-extension mask only occupies bits 32-k and above. -/
theorem asr_parity (v k : Nat) (hk : k ≤ 31) : asr32 v k % 2 = (v >>> k) % 2 := by
  by_cases hb : get_bit v 31
  · rw [asr32_eq_pos v k hb]
    set A := v >>> k with hA
    have e2 : (2 : Nat) ^ (32 - k) = 2 * 2 ^ (31 - k) := by
      rw [show 32 - k = (31 - k) + 1 by omega, pow_succ]
      ring
    have e3 : (2 : Nat) ^ 32 = 2 * 2 ^ 31 := by norm_num
    have hle : (2 : Nat) ^ (31 - k) ≤ 2 ^ 31 :=
      Nat.pow_le_pow_right (by norm_num) (by omega)
    omega
  · rw [asr32_eq_neg v k (by simpa using hb)]

/-- Arithmetic core of the shift-composition lemma, over abstract values so
that omega sees plain variables. -/
theorem asr_comp_arith (A G H : Nat) (hA : A < 2 * G) (hGH : 2 * G ≤ H) :
    (A + (2 * H - 2 * G)) / 2 + (2 * H - H) = A / 2 + (2 * H - G) := by
  omega

/-- Composing one extra arithmetic shift: the Rust pattern
`((v as i32) >> k) >> 1` equals the single arithmetic shift by k+1. -/
theorem asr_comp (v k : Nat) (hv : v < 2 ^ 32) (hk : k ≤ 31) :
    asr32 (asr32 v k) 1 = asr32 v (k + 1) := by
  have hsr : v >>> k >>> 1 = v >>> (k + 1) := by
    rw [← Nat.shiftRight_add]
  by_cases hb : get_bit v 31
  · rcases Nat.eq_zero_or_pos k with hk0 | hkpos
    · subst hk0
      have h0 : asr32 v 0 = v := by
        rw [asr32_eq_pos v 0 hb]
        simp
      rw [h0]
    · have hA : v >>> k < 2 ^ (32 - k) := by
        rw [Nat.shiftRight_eq_div_pow]
        apply Nat.div_lt_of_lt_mul
        calc v < 2 ^ 32 := hv
        _ = 2 ^ k * 2 ^ (32 - k) := by rw [← pow_add]; congr 1; omega
      have e2 : (2 : Nat) ^ (32 - k) = 2 * 2 ^ (31 - k) := by
        rw [show 32 - k = (31 - k) + 1 by omega, pow_succ]
        ring
      have e3 : (2 : Nat) ^ 32 = 2 * 2 ^ 31 := by norm_num
      have hGH : (2 : Nat) ^ (31 - k) ≤ 2 ^ 30 :=
        Nat.pow_le_pow_right (by norm_num) (by omega)
      have hG1 : 1 ≤ (2 : Nat) ^ (31 - k) := Nat.one_le_two_pow
      have h30 : (2 : Nat) ^ 30 * 2 = 2 ^ 31 := by norm_num
      have h31 : (2 : Nat) ^ 31 = 2147483648 := by norm_num
      have hA' : v >>> k < 2 * 2 ^ (31 - k) := by rw [← e2]; exact hA
      have hb31' : ∀ A : Nat, A < 2 * 2 ^ (31 - k) →
          get_bit (A + (2 ^ 32 - 2 ^ (32 - k))) 31 = true := by
        intro A hA''
        rw [e2, e3]
        apply bit31_true_of_range
        · omega
        · omega
      have hb31 : get_bit (v >>> k + (2 ^ 32 - 2 ^ (32 - k))) 31 = true :=
        hb31' (v >>> k) hA'
      rw [asr32_eq_pos v k hb, asr32_eq_pos _ 1 hb31, asr32_eq_pos v (k + 1) hb]
      rw [show (32 : Nat) - 1 = 31 from rfl, show 32 - (k + 1) = 31 - k by omega]
      rw [← hsr, Nat.shiftRight_one, Nat.shiftRight_one, e2, e3]
      exact asr_comp_arith (v >>> k) (2 ^ (31 - k)) (2 ^ 31) hA'
        (by calc 2 * 2 ^ (31 - k) ≤ 2 * 2 ^ 30 := Nat.mul_le_mul_left 2 hGH
          _ = 2 ^ 31 := by norm_num)
  · have hbf : get_bit v 31 = false := by simpa using hb
    have hv31 : v < 2 ^ 31 := lt_pow31_of_bit31_clear v hv hbf
    have hle : v >>> k ≤ v := by
      rw [Nat.shiftRight_eq_div_pow]
      exact Nat.div_le_self _ _
    have hA31 : get_bit (v >>> k) 31 = false :=
      bit31_false_of_lt _ (by omega)
    rw [asr32_eq_neg v k hbf, asr32_eq_neg _ 1 hA31, asr32_eq_neg v (k + 1) hbf, hsr]

/-- Splitting one bit off a right shift. -/
theorem shiftRight_pred (val n : Nat) (hn : 1 ≤ n) :
    val >>> (n - 1) >>> 1 = val >>> n := by
  rw [← Nat.shiftRight_add]
  congr 1
  omega

/-- Shifting a 32-bit value right by 32 clears it. -/
theorem shiftRight32_eq_zero (val : Nat) (hval : val < 2 ^ 32) : val >>> 32 = 0 := by
  rw [Nat.shiftRight_eq_div_pow]
  exact Nat.div_eq_of_lt hval

/-- C7: the barrel shifter of src/cpu/arm/data.rs computes exactly the
(result, carry) pairs of the spec's section 4.2 table, for every 32-bit
value, every decoded shift specifier (immediate or register-supplied amount)
and every carry-in.  The table side is shifterSpec, written from the spec's
words; the type field is bits 1..2 of the specifier. -/
theorem C7_shifter_matches_spec (cpu : CPU) (s val : Nat) (isImm : Bool)
    (amount : Nat) (hval : val < 2 ^ 32)
    (hdec : cpu.get_shift_amount s = some (isImm, amount)) :
    cpu.apply_shift s val
      = some (shifterSpec ((s >>> 1) % 4) isImm amount val cpu.cpsr.carry) := by
  have hty : (s >>> 1) % 4 = 2 * ((s >>> 2) % 2) + (s >>> 1) % 2 := ty_of_bits s
  simp only [CPU.apply_shift, hdec, Option.bind_eq_bind, Option.some_bind,
    Option.pure_def]
  rw [shifterSpec]
  by_cases h0 : isImm = false ∧ amount = 0
  · rw [if_pos h0, if_pos h0]
  · rw [if_neg h0, if_neg h0]
    by_cases hb2 : get_bit s 2 = true <;> by_cases hb1 : get_bit s 1 = true
    · -- type 3: ROR
      have h2' : (s >>> 2) % 2 = 1 := by
        have := hb2
        simp only [get_bit, decide_eq_true_eq] at this
        exact this
      have h1' : (s >>> 1) % 2 = 1 := by
        have := hb1
        simp only [get_bit, decide_eq_true_eq] at this
        exact this
      have hty3 : (s >>> 1) % 4 = 3 := by omega
      rw [hty3]
      simp only [hb2, hb1]
      norm_num
      by_cases ha0 : amount = 0
      · simp [ha0, Nat.add_comm]
      · simp [ha0]
    · -- type 2: ASR
      have e1 : get_bit s 1 = false := by simpa using hb1
      have h2' : (s >>> 2) % 2 = 1 := by
        have := hb2
        simp only [get_bit, decide_eq_true_eq] at this
        exact this
      have h1' : (s >>> 1) % 2 = 0 := by
        have := hb1
        simp only [get_bit, decide_eq_true_eq] at this
        omega
      have hty2 : (s >>> 1) % 4 = 2 := by omega
      rw [hty2]
      simp only [hb2, e1]
      norm_num
      by_cases hbig : amount = 0 ∨ 32 ≤ amount
      · rw [if_pos hbig, if_pos hbig]
      · rw [if_neg hbig, if_neg hbig]
        have hk : amount - 1 ≤ 31 := by omega
        have hcmp := asr_comp val (amount - 1) hval hk
        rw [show amount - 1 + 1 = amount by omega] at hcmp
        have hpar := asr_parity val (amount - 1) hk
        simp only [Option.some.injEq, Prod.mk.injEq]
        refine ⟨hcmp, ?_⟩
        unfold get_bit
        rw [hpar]
    · -- type 1: LSR
      have e2 : get_bit s 2 = false := by simpa using hb2
      have h2' : (s >>> 2) % 2 = 0 := by
        have := hb2
        simp only [get_bit, decide_eq_true_eq] at this
        omega
      have h1' : (s >>> 1) % 2 = 1 := by
        have := hb1
        simp only [get_bit, decide_eq_true_eq] at this
        exact this
      have hty1 : (s >>> 1) % 4 = 1 := by omega
      rw [hty1]
      simp only [e2, hb1]
      norm_num
      by_cases ha0 : amount = 0
      · simp [ha0]
      · rw [if_neg ha0, if_neg ha0]
        by_cases hgt : 32 < amount
        · rw [if_pos hgt, if_neg (by omega : ¬amount ≤ 31),
            if_neg (by omega : ¬amount = 32)]
        · rw [if_neg hgt]
          by_cases h32 : amount = 32
          · subst h32
            rw [if_neg (by omega : ¬(32 : Nat) ≤ 31), if_pos rfl,
              shiftRight_pred val 32 (by norm_num), shiftRight32_eq_zero val hval]
            norm_num [get_bit_eq_testBit]
          · rw [if_pos (by omega : amount ≤ 31),
              shiftRight_pred val amount (by omega)]
            rw [get_bit_eq_testBit]
    · -- type 0: LSL
      have e2 : get_bit s 2 = false := by simpa using hb2
      have e1 : get_bit s 1 = false := by simpa using hb1
      have h2' : (s >>> 2) % 2 = 0 := by
        have := hb2
        simp only [get_bit, decide_eq_true_eq] at this
        omega
      have h1' : (s >>> 1) % 2 = 0 := by
        have := hb1
        simp only [get_bit, decide_eq_true_eq] at this
        omega
      have hty0 : (s >>> 1) % 4 = 0 := by omega
      rw [hty0]
      simp only [e2, e1]
      norm_num
      by_cases ha0 : amount = 0
      · simp [ha0]
      · rw [if_neg ha0, if_neg ha0]
        by_cases hgt : 32 < amount
        · rw [if_pos hgt, if_neg (by omega : ¬amount ≤ 31),
            if_neg (by omega : ¬amount = 32)]
        · rw [if_neg hgt]
          by_cases h32 : amount = 32
          · rw [if_pos h32, if_neg (by omega : ¬amount ≤ 31), if_pos h32]
          · rw [if_neg h32, if_pos (by omega : amount ≤ 31)]

/-- C7 witness: the equivalence applied at a concrete input — LSR #5 applied
to 0xABCDEF3F on a fresh CPU (carry-in false): both the code and the spec
table give (0xABCDEF3F >> 5, carry = bit 4 = true). -/
theorem C7_witness :
    (0xABCDEF3F : Nat) < 2 ^ 32 ∧
    CPU.new.get_shift_amount 0x2A = some (true, 5) ∧
    CPU.new.apply_shift 0x2A 0xABCDEF3F
      = some (shifterSpec ((0x2A >>> 1) % 4) true 5 0xABCDEF3F CPU.new.cpsr.carry) := by
  refine ⟨by norm_num, rfl, C7_shifter_matches_spec CPU.new 0x2A 0xABCDEF3F true 5
    (by norm_num) rfl⟩

end Gba
